import Mathlib

/-!
Shallow embedding of the expense-tracker's CSV ingestion, duplicate-detection
and category-ledger core (app/models.py, app/csv_parser.py, app/db.py,
app/views.py), together with theorems settling the frozen claims about it.

Modelling conventions:
* Python strings are Lean `String`s; the character-level work (splitting,
  stripping, lower-casing, digit parsing) is done by structural recursion on
  `List Char` so that every definition evaluates inside the kernel.
* `decimal.Decimal` values are the inductive `DecVal`: a finite numeric
  value carries a `ℚ` (Python's `Decimal.__eq__` and the dataclass equality
  derived from it compare numerically, which is exactly `ℚ` equality), and
  the special literals `Decimal` also accepts — a quiet `NaN` with optional
  diagnostic digits, a signaling `sNaN`, and `Infinity`/`Inf` — have their
  own constructors.  Quiet NaNs really reach `Transaction` amounts: a NaN
  amount cell parsed by a format with a type column survives construction
  (`NaN == 0` is quietly False), and the Capital One debit/credit branch
  turns a blank cell into `Decimal('nan')` before the subtraction.
* `float(...)` of a Decimal is `DecVal → PyFloat`: finite values round to
  the nearest binary64, values past the binary64 range become ±inf (CPython
  converts through the decimal's string, and float-from-string overflows to
  an infinity rather than raising), a quiet NaN becomes the float nan —
  which sqlite3 binds as SQL NULL — and only a signaling NaN raises.
* `datetime` values produced by the parsers always have a zero time-of-day,
  so they are modelled by a calendar-date record `Date`.  `isoformat` is an
  injective encoding of such a datetime, hence equality of the stored ISO
  strings coincides with equality of `Date` values and the store keeps the
  `Date` itself.
* pandas cells are `Option String`: `none` is pandas `NaN` — an empty or
  missing cell, or a cell whose exact text is one of read_csv's default
  `na_values` strings ("NaN", "NULL", "None", …).  Any other cell keeps
  its text.  `str(value)` of a `NaN` cell is the Python string "nan",
  which the model reproduces.
-/

/-! ## Character-level utilities (structural replacements for Python's
`str.split`, `str.strip`, `str.lower`, `str.replace`) -/

def isPySpace (c : Char) : Bool :=
  c = ' ' || c = '\t' || c = '\n' || c = '\r'

def splitOnCharL (sep : Char) : List Char → List (List Char)
  | [] => [[]]
  | c :: cs =>
    let r := splitOnCharL sep cs
    if c = sep then [] :: r
    else
      match r with
      | [] => [[c]]
      | g :: gs => (c :: g) :: gs

def dropTrailingWhile (p : Char → Bool) (cs : List Char) : List Char :=
  (cs.reverse.dropWhile p).reverse

def stripL (cs : List Char) : List Char :=
  dropTrailingWhile isPySpace (cs.dropWhile isPySpace)

def pyStrip (s : String) : String := ⟨stripL s.data⟩

def pySplit (sep : Char) (s : String) : List String :=
  (splitOnCharL sep s.data).map (fun g => ⟨g⟩)

def lowerChar (c : Char) : Char :=
  if 'A' ≤ c ∧ c ≤ 'Z' then Char.ofNat (c.toNat + 32) else c

def pyLower (s : String) : String := ⟨s.data.map lowerChar⟩

def removeChar (bad : Char) (s : String) : String :=
  ⟨s.data.filter (fun c => c ≠ bad)⟩

def digitVal (c : Char) : Nat := c.toNat - '0'.toNat

def allDigits (cs : List Char) : Bool := cs.all Char.isDigit

def digitsToNat (cs : List Char) : Nat :=
  cs.foldl (fun acc c => acc * 10 + digitVal c) 0

/-! ## Calendar dates (`datetime` with zero time-of-day) -/

structure Date where
  year : Nat
  month : Nat
  day : Nat
deriving DecidableEq, Repr

def isLeapYear (y : Nat) : Bool :=
  (y % 4 = 0 && y % 100 ≠ 0) || y % 400 = 0

def daysInMonth (y m : Nat) : Nat :=
  if m = 2 then (if isLeapYear y then 29 else 28)
  else if m = 4 ∨ m = 6 ∨ m = 9 ∨ m = 11 then 30
  else 31

def mkDate? (y m d : Nat) : Option Date :=
  if 1 ≤ y ∧ y ≤ 9999 ∧ 1 ≤ m ∧ m ≤ 12 ∧ 1 ≤ d ∧ d ≤ daysInMonth y m then
    some ⟨y, m, d⟩
  else none

/-- Component of a strptime pattern: one or two digits (as in %m / %d). -/
def parse2? (cs : List Char) : Option Nat :=
  if cs ≠ [] ∧ cs.length ≤ 2 ∧ allDigits cs then some (digitsToNat cs) else none

/-- Component of a strptime pattern: exactly four digits (as in %Y). -/
def parse4? (cs : List Char) : Option Nat :=
  if cs.length = 4 ∧ allDigits cs then some (digitsToNat cs) else none

inductive DateFmt where
  | mdY_slash   -- %m/%d/%Y
  | Ymd_dash    -- %Y-%m-%d
  | mdY_dash    -- %m-%d-%Y
  | dmY_slash   -- %d/%m/%Y
deriving DecidableEq, Repr

def strptime? (s : String) (fmt : DateFmt) : Option Date :=
  match fmt with
  | DateFmt.mdY_slash =>
    match splitOnCharL '/' s.data with
    | [ms, ds, ys] => do
      let m ← parse2? ms
      let d ← parse2? ds
      let y ← parse4? ys
      mkDate? y m d
    | _ => none
  | DateFmt.Ymd_dash =>
    match splitOnCharL '-' s.data with
    | [ys, ms, ds] => do
      let y ← parse4? ys
      let m ← parse2? ms
      let d ← parse2? ds
      mkDate? y m d
    | _ => none
  | DateFmt.mdY_dash =>
    match splitOnCharL '-' s.data with
    | [ms, ds, ys] => do
      let m ← parse2? ms
      let d ← parse2? ds
      let y ← parse4? ys
      mkDate? y m d
    | _ => none
  | DateFmt.dmY_slash =>
    match splitOnCharL '/' s.data with
    | [ds, ms, ys] => do
      let d ← parse2? ds
      let m ← parse2? ms
      let y ← parse4? ys
      mkDate? y m d
    | _ => none

/-- CSVParser._parse_date: generic fallback trying, in order,
MM/DD/YYYY, YYYY-MM-DD, MM-DD-YYYY, DD/MM/YYYY on the stripped string. -/
def pyParseDate? (cell : Option String) : Option Date :=
  match cell with
  | none => none          -- pd.isna → ValueError("Date cannot be empty")
  | some s =>
    let t := pyStrip s
    (strptime? t DateFmt.mdY_slash).orElse fun _ =>
    (strptime? t DateFmt.Ymd_dash).orElse fun _ =>
    (strptime? t DateFmt.mdY_dash).orElse fun _ =>
    strptime? t DateFmt.dmY_slash

/-- CSVParser._parse_date_with_format: try the format's declared pattern,
fall back to the generic parser. -/
def parseDateWithFormat? (cell : Option String) (fmt : DateFmt) : Option Date :=
  match cell with
  | none => none
  | some s =>
    let t := pyStrip s
    (strptime? t fmt).orElse fun _ => pyParseDate? (some s)

/-! ## Decimal parsing.  Python `Decimal(text)`: surrounding whitespace
stripped and underscores removed throughout, then an optional sign
followed by either a numeric value (digits with at most one point,
optional exponent), an `Infinity`/`Inf` literal, or a `NaN`/`sNaN`
literal with optional diagnostic digits — all case-insensitive.  A
numeric value is assembled as a single `mkRat` (never through `ℚ`
arithmetic) so that it reduces in the kernel. -/

def parseUnsignedMantissa? (cs : List Char) : Option (Nat × Nat) :=
  match splitOnCharL '.' cs with
  | [ip] => if ip ≠ [] ∧ allDigits ip then some (digitsToNat ip, 0) else none
  | [ip, fp] =>
    if (ip ≠ [] ∨ fp ≠ []) ∧ allDigits ip ∧ allDigits fp then
      some (digitsToNat ip * 10 ^ fp.length + digitsToNat fp, fp.length)
    else none
  | _ => none

def parseSign (cs : List Char) : Bool × List Char :=
  match cs with
  | '-' :: rest => (true, rest)
  | '+' :: rest => (false, rest)
  | _ => (false, cs)

def parseExponent? (cs : List Char) : Option Int :=
  let (neg, body) := parseSign cs
  if body ≠ [] ∧ allDigits body then
    some (if neg then -(digitsToNat body : Int) else (digitsToNat body : Int))
  else none

/-- Value of a decimal literal: sign, coefficient digits `n`, fractional
length `f`, exponent `e`; the rational is n·10^(e−f). -/
def decValue (neg : Bool) (n : Nat) (f : Nat) (e : Int) : ℚ :=
  let sn : Int := if neg then -(n : Int) else (n : Int)
  if 0 ≤ e - (f : Int) then
    mkRat (sn * (10 : Int) ^ (e - (f : Int)).toNat) 1
  else
    mkRat sn ((10 : Nat) ^ ((f : Int) - e).toNat)

/-- A `decimal.Decimal` value: a finite numeric value, a quiet NaN, a
signaling NaN, or a signed infinity.  (Diagnostic digits on a NaN and
the sign of a NaN play no role downstream and are not kept.) -/
inductive DecVal where
  | num (q : ℚ)
  | nan
  | snan
  | inf (neg : Bool)
deriving DecidableEq, Repr

/-- The special Decimal literals, applied to the lower-cased unsigned
body: `inf`/`infinity`, and `nan`/`snan` with optional diagnostic
digits. -/
def parseSpecial? (neg : Bool) (lower : List Char) : Option DecVal :=
  if lower = "inf".data ∨ lower = "infinity".data then some (DecVal.inf neg)
  else
    match lower with
    | 'n' :: 'a' :: 'n' :: rest =>
      if allDigits rest then some DecVal.nan else none
    | 's' :: 'n' :: 'a' :: 'n' :: rest =>
      if allDigits rest then some DecVal.snan else none
    | _ => none

def parseDecimal? (s : String) : Option DecVal :=
  let cs := (stripL s.data).filter (fun c => c ≠ '_')
  let (neg, body) := parseSign cs
  let lower := body.map lowerChar
  match parseSpecial? neg lower with
  | some v => some v
  | none =>
    match splitOnCharL 'e' lower with
    | [mant] => do
      let (n, f) ← parseUnsignedMantissa? mant
      pure (DecVal.num (decValue neg n f 0))
    | [mant, ex] => do
      let (n, f) ← parseUnsignedMantissa? mant
      let e ← parseExponent? ex
      pure (DecVal.num (decValue neg n f e))
    | _ => none

/-- Python float(text), used only by the header-less detection heuristic:
the numeric shapes (sign, digits, point, exponent) and the bare special
literals `nan`/`inf`/`infinity`; unlike `Decimal`, a NaN with diagnostic
digits or an `snan` is a ValueError.  (float also allows underscores, but
only between digits; the heuristic's inputs in the claims carry none, so
underscores are not modelled here.) -/
def pyFloatParses (s : String) : Bool :=
  let cs := stripL s.data
  let (_, body) := parseSign cs
  let lower := body.map lowerChar
  lower = "nan".data || lower = "inf".data || lower = "infinity".data ||
    (match splitOnCharL 'e' lower with
     | [mant] => (parseUnsignedMantissa? mant).isSome
     | [mant, ex] => (parseUnsignedMantissa? mant).isSome && (parseExponent? ex).isSome
     | _ => false)

/-! ## Transaction (app/models.py) -/

structure Transaction where
  transaction_date : Date
  post_date : Date
  description : String
  category : String
  transaction_type : String
  amount : DecVal
  memo : Option String := none
  id : Option Nat := none
deriving DecidableEq, Repr

/-- Whether an ordering comparison on the amount raises InvalidOperation
(`<` and `>` signal on every Decimal NaN, quiet or signaling). -/
def DecVal.isNan : DecVal → Bool
  | DecVal.nan => true
  | DecVal.snan => true
  | _ => false

/-- The Decimal comparison `amount < 0` on non-NaN values (`-Infinity` is
below every finite value, `Infinity` above). -/
def DecVal.ltZero : DecVal → Bool
  | DecVal.num q => decide (q < 0)
  | DecVal.inf neg => neg
  | _ => false

/-- The Decimal comparison `amount > 0` on non-NaN values. -/
def DecVal.gtZero : DecVal → Bool
  | DecVal.num q => decide (q > 0)
  | DecVal.inf neg => !neg
  | _ => false

/-- Transaction construction including `__post_init__`: an empty (after
strip) description raises; `self.amount == 0` then raises for a zero
amount — and for a signaling NaN, whose `==` itself signals
InvalidOperation — while a quiet NaN or an infinity compares unequal to 0
quietly and is accepted; an empty category is replaced by
"Uncategorized". -/
def mkTransaction (td pd : Date) (descr cat ttype : String) (amt : DecVal)
    (memo : Option String) (id : Option Nat := none) : Option Transaction :=
  if pyStrip descr = "" then none
  else if amt = DecVal.snan then none
  else if amt = DecVal.num 0 then none
  else some
    { transaction_date := td
      post_date := pd
      description := descr
      category := if pyStrip cat = "" then "Uncategorized" else cat
      transaction_type := ttype
      amount := amt
      memo := memo
      id := id }

/-- Transaction.is_expense, `self.amount < 0`: a boolean for a non-NaN
amount, InvalidOperation for a NaN amount. -/
def Transaction.is_expense (t : Transaction) : Except String Bool :=
  match t.amount with
  | DecVal.num q => Except.ok (decide (q < 0))
  | DecVal.inf neg => Except.ok neg
  | _ => Except.error "InvalidOperation: ordering a NaN Decimal"

/-- Transaction.is_payment, `self.amount > 0`. -/
def Transaction.is_payment (t : Transaction) : Except String Bool :=
  match t.amount with
  | DecVal.num q => Except.ok (decide (q > 0))
  | DecVal.inf neg => Except.ok (!neg)
  | _ => Except.error "InvalidOperation: ordering a NaN Decimal"

/-! ## Format registry (CSVParser.formats, in Python dict insertion order) -/

inductive ColRef where
  | byName (s : String)
  | byIndex (n : Nat)
  | absent
deriving DecidableEq, Repr

structure FormatSpec where
  display_name : String
  required_columns : List String
  map_transaction_date : ColRef
  map_post_date : ColRef
  map_description : ColRef
  map_category : ColRef
  map_transaction_type : ColRef
  map_amount : ColRef
  map_memo : ColRef
  date_format : DateFmt
  headerless : Bool := false
deriving Repr

def chaseSpec : FormatSpec :=
  { display_name := "Chase Credit Card"
    required_columns := ["Transaction Date", "Post Date", "Description", "Category", "Type", "Amount", "Memo"]
    map_transaction_date := ColRef.byName "Transaction Date"
    map_post_date := ColRef.byName "Post Date"
    map_description := ColRef.byName "Description"
    map_category := ColRef.byName "Category"
    map_transaction_type := ColRef.byName "Type"
    map_amount := ColRef.byName "Amount"
    map_memo := ColRef.byName "Memo"
    date_format := DateFmt.mdY_slash }

def bankOfAmericaSpec : FormatSpec :=
  { display_name := "Bank of America"
    required_columns := ["Date", "Description", "Amount", "Running Bal."]
    map_transaction_date := ColRef.byName "Date"
    map_post_date := ColRef.byName "Date"
    map_description := ColRef.byName "Description"
    map_category := ColRef.absent
    map_transaction_type := ColRef.absent
    map_amount := ColRef.byName "Amount"
    map_memo := ColRef.absent
    date_format := DateFmt.mdY_slash }

def americanExpressSpec : FormatSpec :=
  { display_name := "American Express"
    required_columns := ["Date", "Description", "Amount"]
    map_transaction_date := ColRef.byName "Date"
    map_post_date := ColRef.byName "Date"
    map_description := ColRef.byName "Description"
    map_category := ColRef.absent
    map_transaction_type := ColRef.absent
    map_amount := ColRef.byName "Amount"
    map_memo := ColRef.absent
    date_format := DateFmt.mdY_slash }

def wellsFargoSpec : FormatSpec :=
  { display_name := "Wells Fargo"
    required_columns := ["Date", "Amount", "Description"]
    map_transaction_date := ColRef.byName "Date"
    map_post_date := ColRef.byName "Date"
    map_description := ColRef.byName "Description"
    map_category := ColRef.absent
    map_transaction_type := ColRef.absent
    map_amount := ColRef.byName "Amount"
    map_memo := ColRef.absent
    date_format := DateFmt.mdY_slash }

def wellsFargoHeaderlessSpec : FormatSpec :=
  { display_name := "Wells Fargo (No Headers)"
    required_columns := []
    map_transaction_date := ColRef.byIndex 0
    map_post_date := ColRef.byIndex 0
    map_description := ColRef.byIndex 2
    map_category := ColRef.absent
    map_transaction_type := ColRef.absent
    map_amount := ColRef.byIndex 1
    map_memo := ColRef.absent
    date_format := DateFmt.mdY_slash
    headerless := true }

def capitalOneSpec : FormatSpec :=
  { display_name := "Capital One"
    required_columns := ["Transaction Date", "Posted Date", "Card No.", "Description", "Category", "Debit", "Credit"]
    map_transaction_date := ColRef.byName "Transaction Date"
    map_post_date := ColRef.byName "Posted Date"
    map_description := ColRef.byName "Description"
    map_category := ColRef.byName "Category"
    map_transaction_type := ColRef.absent
    map_amount := ColRef.absent   -- special debit/credit handling
    map_memo := ColRef.absent
    date_format := DateFmt.Ymd_dash }

def formats : List (String × FormatSpec) :=
  [("chase", chaseSpec),
   ("bank_of_america", bankOfAmericaSpec),
   ("american_express", americanExpressSpec),
   ("wells_fargo", wellsFargoSpec),
   ("wells_fargo_headerless", wellsFargoHeaderlessSpec),
   ("capital_one", capitalOneSpec)]

def lookupFormat (name : String) : Option FormatSpec :=
  (formats.find? (fun p => p.1 = name)).map Prod.snd

/-! ## The pandas reading model.

`pd.read_csv(StringIO(content))` is modelled as: split the text into lines,
drop blank lines (skip_blank_lines), split each line on commas.  The first
line is the header row, the rest are data rows (for `header=None` every
line is a data row).  A cell is `none` (pandas NaN) when its text is empty
or one of read_csv's default `na_values` strings, or when the row is
shorter than the header; otherwise it keeps its text.  pandas
may render a numeric column's cell as a float (`"5.00"` → `"5.0"`), which
never changes the parsed numeric value, the date strings, or emptiness, so
the text-preserving model is used. -/

def csvCells (content : String) : List (List String) :=
  (((pySplit '\n' content).filter (fun l => pyStrip l ≠ "")).map (pySplit ','))

/-- read_csv's default `na_values`: a cell whose exact text is one of
these becomes NaN (matching is exact — "NaN123" or " NaN" is kept as
text). -/
def pandasNaStrings : List String :=
  ["", "#N/A", "#N/A N/A", "#NA", "-1.#IND", "-1.#QNAN", "-NaN", "-nan",
   "1.#IND", "1.#QNAN", "<NA>", "N/A", "NA", "NULL", "NaN", "None",
   "n/a", "nan", "null"]

def cellOfText (s : String) : Option String :=
  if pandasNaStrings.contains s then none else some s

def getCellByIndex (row : List String) (i : Nat) : Option String :=
  match row.get? i with
  | some s => cellOfText s
  | none => none

def getCell (header row : List String) (c : ColRef) : Option String :=
  match c with
  | ColRef.byName nm =>
    match header.findIdx? (fun h => h = nm) with
    | some i => getCellByIndex row i
    | none => none
  | ColRef.byIndex i => getCellByIndex row i
  | ColRef.absent => none

/-- Python str(value) of a pandas cell: NaN prints as "nan". -/
def pyStrCell (cell : Option String) : String :=
  match cell with
  | none => "nan"
  | some s => s

/-! ## Row normalization (CSVParser.parse_csv_generic / _parse_headerless_csv).

Row-level failures (the Python `continue`s and the exceptions caught by the
per-row `except`) are `Except.error`; the surrounding loop drops them. -/

/-- Rational subtraction written as a single `mkRat` so that it reduces
inside the kernel; `ratSub_eq_sub` below proves it is ordinary
subtraction. -/
def ratSub (a b : ℚ) : ℚ :=
  mkRat (a.num * (b.den : Int) - b.num * (a.den : Int)) (a.den * b.den)

/-- Decimal subtraction `credit − debit`: numeric values subtract (as a
single `mkRat`); a signaling NaN operand raises InvalidOperation, a quiet
NaN propagates; `∞ − ∞` with equal signs raises, otherwise an infinite
operand dominates. -/
def DecVal.sub : DecVal → DecVal → Except String DecVal
  | DecVal.num a, DecVal.num b => Except.ok (DecVal.num (ratSub a b))
  | DecVal.snan, _ => Except.error "InvalidOperation: sNaN operand"
  | _, DecVal.snan => Except.error "InvalidOperation: sNaN operand"
  | DecVal.nan, _ => Except.ok DecVal.nan
  | _, DecVal.nan => Except.ok DecVal.nan
  | DecVal.inf a, DecVal.inf b =>
    if a = b then Except.error "InvalidOperation: infinity minus infinity"
    else Except.ok (DecVal.inf a)
  | DecVal.inf a, DecVal.num _ => Except.ok (DecVal.inf a)
  | DecVal.num _, DecVal.inf b => Except.ok (DecVal.inf (!b))

def stripCurrency (s : String) : String :=
  removeChar ',' (removeChar '$' s)

/-- Value of one Capital One Debit/Credit cell, following
`row.get(col, 0) or 0` and the conditional `Decimal` conversion.  A NaN
cell stays NaN (NaN is truthy, so `or 0` does not replace it and
`Decimal('nan')` is quiet NaN); a cell reading 0 and the falsy-0 shortcut
`Decimal('0')` produce the same value, so both are `num 0`.  An
unparseable text raises, which the caller turns into a skipped row. -/
def debitCreditValue : Option String → Except String DecVal
  | none => Except.ok DecVal.nan
  | some s =>
    match parseDecimal? (stripCurrency s) with
    | some v => Except.ok v
    | none => Except.error "invalid debit/credit amount"

/-- Amount of one row.  `format_type == 'capital_one'` uses the separate
Debit and Credit columns (amount = credit − debit); every other format
reads the single mapped amount column, skipping the row when the cell is
NaN or does not parse after `$`/`,` removal. -/
def rowAmount (format_type : String) (spec : FormatSpec)
    (header row : List String) : Except String DecVal :=
  if format_type = "capital_one" then do
    let debit ← debitCreditValue (getCell header row (ColRef.byName "Debit"))
    let credit ← debitCreditValue (getCell header row (ColRef.byName "Credit"))
    DecVal.sub credit debit
  else
    match getCell header row spec.map_amount with
    | none => Except.error "amount is NaN"       -- pd.isna → continue
    | some s =>
      match parseDecimal? (pyStrip (stripCurrency (pyStrip s))) with
      | some v => Except.ok v
      | none => Except.error "invalid amount"

/-- Transaction type derived from the amount's sign: `"Payment" if amount
> 0 else "Sale"`.  Deriving from a NaN amount (quiet or signaling) raises
`InvalidOperation`, which skips the row; an infinity compares fine. -/
def rowDerivedType : DecVal → Except String String
  | DecVal.num q => Except.ok (if q > 0 then "Payment" else "Sale")
  | DecVal.inf neg => Except.ok (if neg then "Sale" else "Payment")
  | _ => Except.error "InvalidOperation: ordering a NaN Decimal"

/-- Transaction type of one row: the mapped column when the format has one
and the header contains it, otherwise derived from the amount's sign.
When the format does map a type column (chase), a NaN amount bypasses the
sign derivation and flows on to the Transaction constructor. -/
def rowTransactionType (spec : FormatSpec) (header row : List String)
    (amount : DecVal) : Except String String :=
  match spec.map_transaction_type with
  | ColRef.byName c =>
    if header.contains c then
      Except.ok (pyStrip (pyStrCell (getCell header row (ColRef.byName c))))
    else rowDerivedType amount
  | _ => rowDerivedType amount

/-- Post date of one row: the mapped column, or (for a falsy mapping) the
transaction date itself. -/
def rowPostDate (spec : FormatSpec) (header row : List String) (td : Date) :
    Except String Date :=
  match spec.map_post_date with
  | ColRef.absent => Except.ok td        -- falsy mapping: reuse transaction date
  | m =>
    match parseDateWithFormat? (getCell header row m) spec.date_format with
    | some d => Except.ok d
    | none => Except.error "bad post date"

/-- Description of one row; empty after strip becomes
"Unknown Transaction". -/
def rowDescription (spec : FormatSpec) (header row : List String) : String :=
  let descr0 := pyStrip (pyStrCell (getCell header row spec.map_description))
  if descr0 = "" then "Unknown Transaction" else descr0

/-- Category of one row; an absent mapping, an absent column, an empty
trimmed cell or a NaN cell all give "Uncategorized". -/
def rowCategory (spec : FormatSpec) (header row : List String) : String :=
  match spec.map_category with
  | ColRef.byName c =>
    if header.contains c then
      let cCell := getCell header row (ColRef.byName c)
      let cat0 := pyStrip (pyStrCell cCell)
      if cat0 = "" ∨ cCell = none then "Uncategorized" else cat0
    else "Uncategorized"
  | _ => "Uncategorized"

/-- Memo of one row; a NaN cell or an empty trimmed cell is no memo. -/
def rowMemo (spec : FormatSpec) (header row : List String) : Option String :=
  match spec.map_memo with
  | ColRef.byName c =>
    if header.contains c then
      match getCell header row (ColRef.byName c) with
      | none => none                     -- pd.notna is false for NaN
      | some s => if pyStrip s = "" then none else some (pyStrip s)
    else none
  | _ => none

/-- One iteration of the parse_csv_generic row loop, in source order:
dates, amount, description, category, type, memo, then construction. -/
def rowParse (format_type : String) (spec : FormatSpec)
    (header row : List String) : Except String Transaction :=
  match parseDateWithFormat? (getCell header row spec.map_transaction_date) spec.date_format with
  | none => Except.error "bad transaction date"
  | some td =>
    match rowPostDate spec header row td with
    | Except.error e => Except.error e
    | Except.ok postd =>
      match rowAmount format_type spec header row with
      | Except.error e => Except.error e
      | Except.ok amount =>
        match rowTransactionType spec header row amount with
        | Except.error e => Except.error e
        | Except.ok ttype =>
          match mkTransaction td postd (rowDescription spec header row)
              (rowCategory spec header row) ttype amount (rowMemo spec header row) with
          | some t => Except.ok t
          | none => Except.error "transaction validation failed"

/-- The `for index, row in df.iterrows()` loop with its per-row
try/except: failed rows are logged and dropped, the rest are kept in
order. -/
def rowLoop (format_type : String) (spec : FormatSpec) (header : List String) :
    List (List String) → List Transaction
  | [] => []
  | r :: rs =>
    match rowParse format_type spec header r with
    | Except.ok t => t :: rowLoop format_type spec header rs
    | Except.error _ => rowLoop format_type spec header rs

/-- One iteration of the _parse_headerless_csv row loop: fields are read
by column index; the category is always "Uncategorized", the type is
derived from the amount sign, there is no memo. -/
def rowParseHeaderless (spec : FormatSpec) (row : List String) :
    Except String Transaction :=
  match parseDateWithFormat? (getCell [] row spec.map_transaction_date) spec.date_format with
  | none => Except.error "bad transaction date"
  | some td =>
    match rowPostDate spec [] row td with  -- the `is not None` check: index 0 is used
    | Except.error e => Except.error e
    | Except.ok postd =>
      match getCell [] row spec.map_amount with
      | none => Except.error "amount is NaN"
      | some s =>
        match parseDecimal? (pyStrip (stripCurrency (pyStrip s))) with
        | none => Except.error "invalid amount"
        | some amount =>
          match rowDerivedType amount with
          | Except.error e => Except.error e
          | Except.ok ttype =>
            match mkTransaction td postd (rowDescription spec [] row) "Uncategorized"
                ttype amount none with
            | some t => Except.ok t
            | none => Except.error "transaction validation failed"

def rowLoopHeaderless (spec : FormatSpec) : List (List String) → List Transaction
  | [] => []
  | r :: rs =>
    match rowParseHeaderless spec r with
    | Except.ok t => t :: rowLoopHeaderless spec rs
    | Except.error _ => rowLoopHeaderless spec rs

/-- CSVParser._parse_headerless_csv: read with header=None (every line is
a data row) and loop. -/
def parse_headerless_csv (content : String) (spec : FormatSpec) : List Transaction :=
  rowLoopHeaderless spec (csvCells content)

/-- CSVParser.parse_csv_generic.  Empty content, an unknown format name, a
structurally unreadable file and missing required columns all fall to the
whole-call exception handler, which returns the empty list. -/
def parse_csv_generic (content : String) (format_type : String) : List Transaction :=
  if pyStrip content = "" then []
  else
    match lookupFormat format_type with
    | none => []                         -- ValueError: unsupported format
    | some spec =>
      if spec.headerless then parse_headerless_csv content spec
      else
        match csvCells content with
        | [] => []                       -- read_csv fails: no data
        | header :: rows =>
          if spec.required_columns.all (fun c => header.contains c) then
            rowLoop format_type spec header rows
          else []                        -- ValueError: missing columns

/-! ## Format detection (CSVParser.detect_csv_format /
_detect_headerless_format) -/

/-- CSVParser._detect_headerless_format: at least two lines, first line
has exactly 3 comma fields, field 0 date-like (contains `/` or `-` with
exactly 3 components), field 1 parses as a float. -/
def detect_headerless_format (content : String) : Option String :=
  let lines := pySplit '\n' (pyStrip content)
  if lines.length < 2 then none
  else
    match lines with
    | [] => none
    | first :: _ =>
      let fl := pySplit ',' first
      if fl.length = 3 then
        let dateCol := pyStrip (fl.getD 0 "")
        let amountCol := pyStrip (fl.getD 1 "")
        if (dateCol.data.contains '/' ∧ (pySplit '/' dateCol).length = 3)
            ∨ (dateCol.data.contains '-' ∧ (pySplit '-' dateCol).length = 3) then
          if pyFloatParses amountCol then some "wells_fargo_headerless" else none
        else none
      else none

/-- CSVParser.detect_csv_format: scan the registry in insertion order for
the first format whose required-column set is contained in the parsed
header, falling back to header-less detection when the scan fails. -/
def detect_csv_format (content : String) : Option String :=
  if pyStrip content = "" then none
  else
    match csvCells content with
    | [] => none                         -- read_csv fails; except → None
    | header :: _ =>
      match formats.find? (fun p => p.2.required_columns.all (fun c => header.contains c)) with
      | some p => some p.1
      | none => detect_headerless_format content

/-- Detection as the specification's §4.2 words it, for comparison with
`detect_csv_format`: only the header-based (non-header-less) formats take
part in the registry scan, then the header-less heuristic is applied to
the first line (exactly 3 comma fields, field 0 date-like, field 1 a
float), and any other shape is NotDetected. -/
def specDetect (content : String) : Option String :=
  if pyStrip content = "" then none
  else
    match csvCells content with
    | [] => none
    | header :: _ =>
      match (formats.filter (fun p => !p.2.headerless)).find?
          (fun p => p.2.required_columns.all (fun c => header.contains c)) with
      | some p => some p.1
      | none =>
        match pySplit ',' ((pySplit '\n' (pyStrip content)).getD 0 "") with
        | [dateF, amountF, _] =>
          let dateCol := pyStrip dateF
          let amountCol := pyStrip amountF
          if ((dateCol.data.contains '/' ∧ (pySplit '/' dateCol).length = 3)
              ∨ (dateCol.data.contains '-' ∧ (pySplit '-' dateCol).length = 3))
              ∧ pyFloatParses amountCol then
            some "wells_fargo_headerless"
          else none
        | _ => none

/-! ## CPython binary float model.

`float(decimal)` converts to an IEEE-754 binary64: round the real value
to 53 significand bits, nearest-ties-to-even; a value whose rounding
leaves the binary64 range becomes ±inf (CPython converts through the
decimal's string, and float-from-string overflows to an infinity rather
than raising); a quiet NaN becomes the float nan; only a signaling NaN
raises (ValueError).  `str(float)` (same as `repr`) prints the shortest
decimal string that reparses to the same float, so `Decimal(str(x))` is
the value of that shortest decimal — "nan" and "inf" read back as
`Decimal('NaN')` and `Decimal('Infinity')`. -/

def roundHalfEven (q : ℚ) : Int :=
  if q - (⌊q⌋ : ℚ) < 1/2 then ⌊q⌋
  else if 1/2 < q - (⌊q⌋ : ℚ) then ⌊q⌋ + 1
  else if ⌊q⌋ % 2 = 0 then ⌊q⌋ else ⌊q⌋ + 1

/-- Binary64 rounding of a rational: scale |q| into [2^52, 2^53), round
the significand to an integer (ties to even), and reapply sign and
scale. -/
def floatRound (q : ℚ) : ℚ :=
  if q = 0 then 0
  else if q < 0 then
    -((roundHalfEven (|q| * (2 : ℚ) ^ (-(Int.log 2 |q| - 52))) : ℚ)
        * (2 : ℚ) ^ (Int.log 2 |q| - 52))
  else
    ((roundHalfEven (|q| * (2 : ℚ) ^ (-(Int.log 2 |q| - 52))) : ℚ)
        * (2 : ℚ) ^ (Int.log 2 |q| - 52))

/-- A CPython float: finite (the exact rational value of the binary64),
nan, or a signed infinity. -/
inductive PyFloat where
  | fin (q : ℚ)
  | fnan
  | finf (neg : Bool)
deriving DecidableEq, Repr

/-- Smallest magnitude whose binary64 rounding leaves the finite range:
2^1024 − 2^970, the halfway value that ties up to 2^1024.  Written as one
`mkRat` so it reduces in the kernel. -/
def floatOverflowBound : ℚ := mkRat ((2 : Int) ^ 1024 - (2 : Int) ^ 970) 1

/-- The float `float(decimal)` produces when it does not raise, which is
also the REAL column value the store keeps: finite values round to the
nearest binary64, out-of-range values become ±inf, NaNs become the float
nan. -/
def storedAmount : DecVal → PyFloat
  | DecVal.num q =>
    if floatOverflowBound ≤ q then PyFloat.finf false
    else if q ≤ -floatOverflowBound then PyFloat.finf true
    else PyFloat.fin (floatRound q)
  | DecVal.nan => PyFloat.fnan
  | DecVal.snan => PyFloat.fnan
  | DecVal.inf neg => PyFloat.finf neg

/-- `float(transaction.amount)`: only a signaling NaN raises; every other
Decimal converts to `storedAmount`. -/
def pyFloat : DecVal → Except String PyFloat
  | DecVal.snan => Except.error "ValueError: cannot convert signaling NaN to float"
  | v => Except.ok (storedAmount v)

/-- Nearest decimal with `k` significant digits (ties to even). -/
def roundSig (x : ℚ) (k : Nat) : ℚ :=
  if x < 0 then
    -((roundHalfEven (|x| * (10 : ℚ) ^ (-(Int.log 10 |x| - (k - 1 : Nat)))) : ℚ)
        * (10 : ℚ) ^ (Int.log 10 |x| - (k - 1 : Nat)))
  else
    ((roundHalfEven (|x| * (10 : ℚ) ^ (-(Int.log 10 |x| - (k - 1 : Nat)))) : ℚ)
        * (10 : ℚ) ^ (Int.log 10 |x| - (k - 1 : Nat)))

/-- Shortest-repr search: the first k ≤ 17 whose nearest k-digit decimal
reparses to the float being printed. -/
def reprSearch (x : ℚ) : Nat → Nat → ℚ
  | 0, _ => x
  | fuel + 1, k =>
    if floatRound (roundSig x k) = x then roundSig x k
    else reprSearch x fuel (k + 1)

/-- Value of `Decimal(str(x))` for a float `x`. -/
def pyFloatRepr (x : ℚ) : ℚ :=
  if x = 0 then 0 else reprSearch x 17 1

/-! ## Serialization (Transaction.to_dict / Transaction.from_dict).

`datetime.isoformat()` on the zero-time datetimes in play writes
"YYYY-MM-DDT00:00:00" and `datetime.fromisoformat` reads it back; the
encoding is injective and inverse, so the dictionary keeps the `Date`
value itself.  The amount is stored as `float(self.amount)` and recovered
as `Decimal(str(data['amount']))`. -/

structure TransactionDict where
  id : Option Nat
  transaction_date : Date
  post_date : Date
  description : String
  category : String
  transaction_type : String
  amount : PyFloat
  memo : Option String
deriving DecidableEq, Repr

/-- Transaction.to_dict: the amount is written as `float(self.amount)`,
which raises for a signaling NaN amount (never produced by parsing) and
converts every other amount. -/
def Transaction.to_dict (t : Transaction) : Except String TransactionDict :=
  match pyFloat t.amount with
  | Except.error e => Except.error e
  | Except.ok p =>
    Except.ok
      { id := t.id
        transaction_date := t.transaction_date
        post_date := t.post_date
        description := t.description
        category := t.category
        transaction_type := t.transaction_type
        amount := p
        memo := t.memo }

/-- Value of `Decimal(str(x))` for a stored float: the shortest-repr
decimal of a finite float; `str` of the float nan is "nan", which reads
back as a quiet `Decimal('NaN')`, and "inf" as `Decimal('Infinity')`. -/
def pyFloatReprDec : PyFloat → DecVal
  | PyFloat.fin q => DecVal.num (pyFloatRepr q)
  | PyFloat.fnan => DecVal.nan
  | PyFloat.finf neg => DecVal.inf neg

/-- Transaction.from_dict calls the constructor, so `__post_init__`
validation applies (a raise is `none`). -/
def Transaction.from_dict (d : TransactionDict) : Option Transaction :=
  mkTransaction d.transaction_date d.post_date d.description d.category
    d.transaction_type (pyFloatReprDec d.amount) d.memo d.id

/-! ## The store (app/db.py).

The transactions table is a list of rows; TEXT date columns hold the
injective isoformat encoding, so the model keeps `Date` values and string
equality of the columns is `Date` equality.  The REAL amount column holds
`float(amount)`. -/

structure StoredTxn where
  id : Nat
  transaction_date : Date
  post_date : Date
  description : String
  category : String
  transaction_type : String
  amount : PyFloat
  memo : Option String
deriving DecidableEq, Repr

def toStored (i : Nat) (t : Transaction) : StoredTxn :=
  { id := i
    transaction_date := t.transaction_date
    post_date := t.post_date
    description := t.description
    category := t.category
    transaction_type := t.transaction_type
    amount := storedAmount t.amount
    memo := t.memo }

/-- SQL equality `amount = ?` between the stored REAL column and the bound
parameter: sqlite3 binds the float nan as NULL, and `= NULL` is never
true, so a nan on either side matches nothing; finite and infinite REALs
compare by value. -/
def sqlEqAmount (stored p : PyFloat) : Bool :=
  match stored, p with
  | PyFloat.fin a, PyFloat.fin b => decide (a = b)
  | PyFloat.finf a, PyFloat.finf b => a = b
  | _, _ => false

/-- Primary check of DatabaseManager.transaction_exists: exact match on
transaction_date, post_date, description and amount, against the bound
parameter `p = float(transaction.amount)`. -/
def txnMatchesExact (t : Transaction) (p : PyFloat) (r : StoredTxn) : Bool :=
  r.transaction_date = t.transaction_date ∧ r.post_date = t.post_date
    ∧ r.description = t.description ∧ sqlEqAmount r.amount p

/-- Secondary check: same date and amount with the description equal
case-sensitively or case-insensitively (LOWER on both sides). -/
def txnMatchesFuzzy (t : Transaction) (p : PyFloat) (r : StoredTxn) : Bool :=
  r.transaction_date = t.transaction_date ∧ sqlEqAmount r.amount p
    ∧ (r.description = t.description ∨ pyLower r.description = pyLower t.description)

/-- DatabaseManager.transaction_exists computes
`float(transaction.amount)` for the query parameters — raising for a
signaling NaN amount — then runs the exact and fuzzy matches. -/
def transaction_exists (store : List StoredTxn) (t : Transaction) :
    Except String Bool :=
  match pyFloat t.amount with
  | Except.error e => Except.error e
  | Except.ok p =>
    Except.ok (store.any (txnMatchesExact t p) || store.any (txnMatchesFuzzy t p))

/-- Julian day number of a calendar date (proleptic Gregorian); date
subtraction by `timedelta(days=n)` and the lexicographic BETWEEN on the
uniform-width isoformat strings both agree with JDN arithmetic. -/
def jdn (d : Date) : Int :=
  let a : Int := (14 - (d.month : Int)) / 12
  let y : Int := (d.year : Int) + 4800 - a
  let m : Int := (d.month : Int) + 12 * a - 3
  (d.day : Int) + (153 * m + 2) / 5 + 365 * y + y / 4 - y / 100 + y / 400 - 32045

/-- DatabaseManager.find_potential_duplicates: same amount,
case-sensitively or case-insensitively equal description, and
transaction_date within ±tolerance_days. -/
def find_potential_duplicates (store : List StoredTxn) (t : Transaction)
    (tolerance_days : Nat := 1) : Except String (List StoredTxn) :=
  match pyFloat t.amount with
  | Except.error e => Except.error e
  | Except.ok p =>
    Except.ok (store.filter (fun r =>
      (jdn r.transaction_date - jdn t.transaction_date).natAbs ≤ tolerance_days
        ∧ sqlEqAmount r.amount p
        ∧ (r.description = t.description ∨ pyLower r.description = pyLower t.description)))

/-! ## Duplicate analysis (views._analyze_duplicates) -/

structure DupAnalysis where
  new_transactions : List Transaction
  new_count : Nat
  duplicates : List (Transaction × List StoredTxn)
  duplicate_count : Nat
  total_count : Nat
deriving DecidableEq, Repr

/-- The `for transaction in transactions` loop of _analyze_duplicates:
each transaction is classified by transaction_exists (whose float
conversion can raise, and the exception propagates out of the analysis);
duplicates collect their potential matches in order. -/
def analyzeGo (store : List StoredTxn) :
    List Transaction →
    Except String (List Transaction × List (Transaction × List StoredTxn))
  | [] => Except.ok ([], [])
  | t :: ts =>
    match transaction_exists store t with
    | Except.error e => Except.error e
    | Except.ok true =>
      match find_potential_duplicates store t 1 with
      | Except.error e => Except.error e
      | Except.ok pot =>
        match analyzeGo store ts with
        | Except.error e => Except.error e
        | Except.ok (news, dups) => Except.ok (news, (t, pot) :: dups)
    | Except.ok false =>
      match analyzeGo store ts with
      | Except.error e => Except.error e
      | Except.ok (news, dups) => Except.ok (t :: news, dups)

def analyze_duplicates (store : List StoredTxn) (ts : List Transaction) :
    Except String DupAnalysis :=
  match analyzeGo store ts with
  | Except.error e => Except.error e
  | Except.ok (news, dups) =>
    Except.ok
      { new_transactions := news
        new_count := news.length
        duplicates := dups
        duplicate_count := dups.length
        total_count := ts.length }

/-- Rows a completed import of `ts` leaves in the store, one insert per
transaction with ids from `nextId`, in loop order. -/
def insertRows (store : List StoredTxn) (nextId : Nat) : List Transaction → List StoredTxn
  | [] => store
  | t :: ts => insertRows (store ++ [toStored nextId t]) (nextId + 1) ts

/-! ## Batch insertion (DatabaseManager.insert_transactions_batch).

sqlite3's connection context manager opens one transaction: executes
accumulate pending rows, a normal exit commits them, an exception rolls
them back before the `except` handler returns `[]`.  A failure oracle
(index of the execute that raises) stands for whatever storage error
interrupts the batch. -/

structure DbConn where
  committed : List StoredTxn
  pending : List StoredTxn
  nextId : Nat
deriving Repr

def connOpen (store : List StoredTxn) (nextId : Nat) : DbConn :=
  ⟨store, [], nextId⟩

def connExecInsert (c : DbConn) (t : Transaction) : DbConn × Nat :=
  ({ c with pending := c.pending ++ [toStored c.nextId t], nextId := c.nextId + 1 },
   c.nextId)

def connCommit (c : DbConn) : DbConn := ⟨c.committed ++ c.pending, [], c.nextId⟩

def connRollback (c : DbConn) : DbConn := ⟨c.committed, [], c.nextId⟩

/-- The insert loop: the i-th execute either raises (oracle) or appends
the row and records its lastrowid. -/
def insertBatchGo (fails : Nat → Bool) :
    List Transaction → Nat → DbConn → List Nat → Except DbConn (DbConn × List Nat)
  | [], _, c, ids => Except.ok (c, ids)
  | t :: ts, i, c, ids =>
    if fails i then Except.error c
    else
      let (c', rid) := connExecInsert c t
      insertBatchGo fails ts (i + 1) c' (ids ++ [rid])

def insert_transactions_batch (fails : Nat → Bool) (store : List StoredTxn)
    (nextId : Nat) (ts : List Transaction) : List StoredTxn × List Nat :=
  if ts = [] then (store, [])
  else
    match insertBatchGo fails ts 0 (connOpen store nextId) [] with
    | Except.ok (c, ids) => ((connCommit c).committed, ids)
    | Except.error c => ((connRollback c).committed, [])

/-! ## Category ledger (DatabaseManager category operations and their
views.py caller) -/

/-- DatabaseManager.merge_categories: one UPDATE setting category to the
target wherever the category is in the merge set; the reported count is
the UPDATE's rowcount, i.e. the number of matched rows.  There is no
self-target check here. -/
def merge_categories (store : List StoredTxn) (categories_to_merge : List String)
    (target_category : String) : List StoredTxn × Nat :=
  (store.map (fun r =>
      if categories_to_merge.contains r.category then { r with category := target_category } else r),
   (store.filter (fun r => categories_to_merge.contains r.category)).length)

/-- The merge flow of views._show_merge_categories_tab: when the target is
one of the categories being merged it shows an error and never calls the
database operation; otherwise it calls merge_categories and reports the
count. -/
def merge_categories_ui (store : List StoredTxn) (categories_to_merge : List String)
    (target_category : String) : List StoredTxn × Option Nat :=
  if categories_to_merge.contains target_category then (store, none)
  else
    let r := merge_categories store categories_to_merge target_category
    (r.1, some r.2)

/-! ## Category hierarchy (DatabaseManager.add_category_hierarchy,
get_category_hierarchy, get_category_path).

The category_hierarchy table keys rows by the unique category_name;
INSERT OR REPLACE is an upsert. -/

abbrev Hier := List (String × (Option String × Nat))

def hierLookup (h : Hier) (name : String) : Option (Option String × Nat) :=
  (h.find? (fun p => p.1 = name)).map Prod.snd

def hierUpsert (h : Hier) (name : String) (v : Option String × Nat) : Hier :=
  (h.filter (fun p => p.1 ≠ name)) ++ [(name, v)]

/-- DatabaseManager.add_category_hierarchy.  With a parent: look the
parent up, use level parent+1; if the parent is unseen, first create it
as a root (the recursive call with no parent is exactly the root upsert,
inlined here) and use level 1.  Without a parent: level 0. -/
def add_category_hierarchy (h : Hier) (category_name : String)
    (parent_category : Option String) : Hier :=
  match parent_category with
  | none => hierUpsert h category_name (none, 0)
  | some p =>
    match hierLookup h p with
    | some (_, plev) => hierUpsert h category_name (some p, plev + 1)
    | none => hierUpsert (hierUpsert h p (none, 0)) category_name (some p, 1)

def hierLevel (h : Hier) (c : String) : Option Nat :=
  (hierLookup h c).map Prod.snd

def hierParent (h : Hier) (c : String) : Option (Option String) :=
  (hierLookup h c).map Prod.fst

/-- A sequence of addEdge calls applied in order. -/
def applyAdds (ops : List (String × Option String)) (h : Hier) : Hier :=
  ops.foldl (fun acc op => add_category_hierarchy acc op.1 op.2) h

/-- `hierarchy.get(current, {}).get('parent')` of get_category_path: the
stored parent pointer, when the category is present and has one. -/
def parentOf (h : Hier) (c : String) : Option String :=
  match hierLookup h c with
  | some (some p, _) => some p
  | _ => none

/-- The parent-walking while loop of get_category_path, with explicit
fuel standing for the number of iterations the loop is given; `none`
means the loop is still running when the fuel runs out, so termination is
existence of sufficient fuel. -/
def pathWalk (h : Hier) : Nat → String → Option (List String)
  | 0, _ => none
  | fuel + 1, current =>
    match parentOf h current with
    | none => some [current]
    | some p => (pathWalk h fuel p).map (fun rest => rest ++ [current])

/-- DatabaseManager.get_category_path: a category outside the hierarchy is
its own path, otherwise walk parent pointers to the root. -/
def get_category_path (h : Hier) (c : String) (fuel : Nat) : Option (List String) :=
  if hierLookup h c = none then some [c]
  else pathWalk h fuel c

/-- Parent-pointer step relation of the hierarchy. -/
def hierStep (h : Hier) (a b : String) : Prop := parentOf h a = some b

/-- Acyclicity of the parent-pointer map: no category is its own proper
ancestor. -/
def AcyclicHier (h : Hier) : Prop :=
  ∀ c, ¬ Relation.TransGen (hierStep h) c c

/-- k-fold parent iteration, used to reason about the walk. -/
def parentIter (h : Hier) : Nat → String → Option String
  | 0, c => some c
  | k + 1, c =>
    match parentOf h c with
    | none => none
    | some p => parentIter h k p

/-- Rows the batch-insert loop stages for a batch, in order. -/
def batchRows (nextId : Nat) : List Transaction → List StoredTxn
  | [] => []
  | t :: ts => toStored nextId t :: batchRows (nextId + 1) ts

/-! ## Concrete instances used by witnesses and counterexamples -/

/-- Scenario CSV: a Chase file of three rows whose middle row has the
non-numeric amount "abc". -/
def threeRowChaseCsv : String :=
  "Transaction Date,Post Date,Description,Category,Type,Amount,Memo\n01/15/2024,01/16/2024,COFFEE,Food,Sale,-1.00,\n01/16/2024,01/17/2024,BOOKS,Shopping,Sale,abc,\n01/17/2024,01/18/2024,GROCER,Food,Sale,-3.00,\n"

/-- Scenario CSV: one Chase row (spec scenario 1 shape). -/
def oneRowChaseCsv : String :=
  "Transaction Date,Post Date,Description,Category,Type,Amount,Memo\n01/15/2024,01/16/2024,STARBUCKS STORE,Food & Drink,Sale,-4.75,\n"

/-- A CSV whose header matches no registered required-column set and whose
first line is not date/amount shaped. -/
def unknownHeaderCsv : String := "X,Y,Z\n1,2,3"

/-- Capital One file whose single row has a blank Credit cell. -/
def capOneBlankCreditCsv : String :=
  "Transaction Date,Posted Date,Card No.,Description,Category,Debit,Credit\n2024-01-15,2024-01-16,1234,STORE,Food,5.00,\n"

/-- Capital One file whose single row carries an explicit 0 credit. -/
def capOneZeroCreditCsv : String :=
  "Transaction Date,Posted Date,Card No.,Description,Category,Debit,Credit\n2024-01-15,2024-01-16,1234,STORE,Food,5.00,0\n"

/-- Two stored rows, one in category "A" and one in category "B". -/
def mergeStore : List StoredTxn :=
  [⟨1, ⟨2024, 1, 1⟩, ⟨2024, 1, 1⟩, "x", "A", "Sale", PyFloat.fin (mkRat (-1) 1), none⟩,
   ⟨2, ⟨2024, 1, 2⟩, ⟨2024, 1, 2⟩, "y", "B", "Sale", PyFloat.fin (mkRat (-2) 1), none⟩]

/-- A two-category parent cycle. -/
def cycHier : Hier := [("A", (some "B", 0)), ("B", (some "A", 0))]

/-- A small acyclic hierarchy: Restaurants under Food. -/
def diningHier : Hier := [("Food", (none, 0)), ("Restaurants", (some "Food", 1))]

/-- Rank used to show `diningHier` has no parent cycle. -/
def diningRank (c : String) : Nat := if c = "Restaurants" then 1 else 0

/-- The Decimal 0.10000000000000000001: more precision than a binary64
holds. -/
def c4Amount : ℚ := mkRat 10000000000000000001 (10 ^ 20)

/-- The binary64 nearest to 0.1 (and to `c4Amount`):
7205759403792794·2⁻⁵⁶. -/
def c4Float : ℚ := mkRat 7205759403792794 (2 ^ 56)

/-- A valid transaction whose amount is `c4Amount`. -/
def c4Txn : Transaction :=
  { transaction_date := ⟨2024, 1, 15⟩
    post_date := ⟨2024, 1, 15⟩
    description := "LEDGER"
    category := "Misc"
    transaction_type := "Sale"
    amount := DecVal.num c4Amount
    memo := none
    id := none }

/-- The dictionary to_dict writes for `c4Txn`: the amount is the binary64
nearest 0.1. -/
def c4Dict : TransactionDict :=
  { id := none
    transaction_date := ⟨2024, 1, 15⟩
    post_date := ⟨2024, 1, 15⟩
    description := "LEDGER"
    category := "Misc"
    transaction_type := "Sale"
    amount := PyFloat.fin c4Float
    memo := none }

/-- Two valid transactions for exercising the batch insert. -/
def batchTxns : List Transaction :=
  [{ transaction_date := ⟨2024, 2, 1⟩, post_date := ⟨2024, 2, 1⟩,
     description := "ONE", category := "Misc", transaction_type := "Sale",
     amount := DecVal.num (mkRat (-1) 1), memo := none, id := none },
   { transaction_date := ⟨2024, 2, 2⟩, post_date := ⟨2024, 2, 2⟩,
     description := "TWO", category := "Misc", transaction_type := "Sale",
     amount := DecVal.num (mkRat (-2) 1), memo := none, id := none }]

/-- The transaction scenario 1's single Chase row parses to. -/
def starbucksTxn : Transaction :=
  { transaction_date := ⟨2024, 1, 15⟩
    post_date := ⟨2024, 1, 16⟩
    description := "STARBUCKS STORE"
    category := "Food & Drink"
    transaction_type := "Sale"
    amount := DecVal.num (mkRat (-475) 100)
    memo := none
    id := none }

/-- First surviving row of `threeRowChaseCsv`. -/
def coffeeTxn : Transaction :=
  { transaction_date := ⟨2024, 1, 15⟩
    post_date := ⟨2024, 1, 16⟩
    description := "COFFEE"
    category := "Food"
    transaction_type := "Sale"
    amount := DecVal.num (mkRat (-100) 100)
    memo := none
    id := none }

/-- Second surviving row of `threeRowChaseCsv`. -/
def grocerTxn : Transaction :=
  { transaction_date := ⟨2024, 1, 17⟩
    post_date := ⟨2024, 1, 18⟩
    description := "GROCER"
    category := "Food"
    transaction_type := "Sale"
    amount := DecVal.num (mkRat (-300) 100)
    memo := none
    id := none }

/-- Names under which the registry is addressable. -/
def formatNames : List String :=
  ["chase", "bank_of_america", "american_express", "wells_fargo",
   "wells_fargo_headerless", "capital_one"]

/-- Chase file whose single row's Amount cell is the Decimal quiet-NaN
literal "NaN123" (the diagnostic digits keep it out of pandas'
`na_values`, so the text reaches `Decimal`). -/
def nanChaseCsv : String :=
  "Transaction Date,Post Date,Description,Category,Type,Amount,Memo\n01/15/2024,01/16/2024,MYSTERY,Misc,Sale,NaN123,\n"

/-- The NaN-amount transaction `nanChaseCsv` parses to: chase takes the
type from the Type column, so the sign derivation never touches the NaN,
and `NaN == 0` is quietly False in the constructor. -/
def nanChaseTxn : Transaction :=
  { transaction_date := ⟨2024, 1, 15⟩
    post_date := ⟨2024, 1, 16⟩
    description := "MYSTERY"
    category := "Misc"
    transaction_type := "Sale"
    amount := DecVal.nan
    memo := none
    id := none }

/-! ## Helper lemmas -/

theorem ratSub_eq_sub (a b : ℚ) : ratSub a b = a - b := by
  have ha : ((a.den : ℚ)) ≠ 0 := by positivity
  have hb : ((b.den : ℚ)) ≠ 0 := by positivity
  rw [ratSub, Rat.mkRat_eq_div]
  push_cast
  conv_rhs => rw [← Rat.num_div_den a, ← Rat.num_div_den b]
  rw [div_sub_div _ _ ha hb]
  ring_nf

theorem hierLookup_upsert_self (h : Hier) (n : String) (v : Option String × Nat) :
    hierLookup (hierUpsert h n v) n = some v := by
  unfold hierLookup hierUpsert
  rw [List.find?_append]
  have h1 : (h.filter (fun p => p.1 ≠ n)).find? (fun p => p.1 = n) = none := by
    rw [List.find?_eq_none]
    intro x hx
    rcases List.mem_filter.mp hx with ⟨-, hxn⟩
    simpa using hxn
  rw [h1]
  simp [List.find?]

theorem hierLookup_upsert_other (h : Hier) (n : String) (v : Option String × Nat)
    (m : String) (hm : m ≠ n) :
    hierLookup (hierUpsert h n v) m = hierLookup h m := by
  unfold hierLookup hierUpsert
  rw [List.find?_append]
  have h2 : List.find? (fun p => p.1 = m) [(n, v)] = none := by
    simp [List.find?, Ne.symm hm]
  rw [h2]
  have h3 : (h.filter (fun p => p.1 ≠ n)).find? (fun p => p.1 = m)
      = h.find? (fun p => p.1 = m) := by
    rw [List.find?_filter]
    have hfun : (fun (a : String × (Option String × Nat)) =>
        decide ((fun p => decide (p.1 ≠ n)) a = true ∧ (fun p => decide (p.1 = m)) a = true))
        = (fun (p : String × (Option String × Nat)) => decide (p.1 = m)) := by
      funext a
      by_cases ham : a.1 = m
      · simp [ham, hm]
      · simp [ham]
    rw [hfun]
  rw [h3, Option.or_none]

theorem add_preserves_root_level (h : Hier)
    (hInv : ∀ c l, hierLookup h c = some (none, l) → l = 0)
    (n : String) (par : Option String) :
    ∀ c l, hierLookup (add_category_hierarchy h n par) c = some (none, l) → l = 0 := by
  intro c l hcl
  cases par with
  | none =>
    by_cases hc : c = n
    · subst hc
      rw [add_category_hierarchy, hierLookup_upsert_self] at hcl
      exact (Prod.mk.injEq _ _ _ _ ▸ (Option.some.injEq _ _ ▸ hcl)).2.symm ▸ rfl
    · rw [add_category_hierarchy, hierLookup_upsert_other _ _ _ _ hc] at hcl
      exact hInv c l hcl
  | some p =>
    rw [add_category_hierarchy] at hcl
    cases hp : hierLookup h p with
    | some pr =>
      obtain ⟨pf, plev⟩ := pr
      rw [hp] at hcl
      by_cases hc : c = n
      · subst hc
        rw [hierLookup_upsert_self] at hcl
        simp at hcl
      · rw [hierLookup_upsert_other _ _ _ _ hc] at hcl
        exact hInv c l hcl
    | none =>
      rw [hp] at hcl
      by_cases hc : c = n
      · subst hc
        rw [hierLookup_upsert_self] at hcl
        simp at hcl
      · rw [hierLookup_upsert_other _ _ _ _ hc] at hcl
        by_cases hcp : c = p
        · subst hcp
          rw [hierLookup_upsert_self] at hcl
          simp at hcl
          omega
        · rw [hierLookup_upsert_other _ _ _ _ hcp] at hcl
          exact hInv c l hcl

theorem applyAdds_root_level (ops : List (String × Option String)) :
    ∀ h : Hier, (∀ c l, hierLookup h c = some (none, l) → l = 0) →
      ∀ c l, hierLookup (applyAdds ops h) c = some (none, l) → l = 0 := by
  induction ops with
  | nil => intro h hInv; simpa [applyAdds] using hInv
  | cons op rest ih =>
    intro h hInv
    have hstep : applyAdds (op :: rest) h
        = applyAdds rest (add_category_hierarchy h op.1 op.2) := rfl
    rw [hstep]
    exact ih _ (add_preserves_root_level h hInv op.1 op.2)

/-- C9 counterexample: after addEdge("A","B") then addEdge("B","C"), the
stored hierarchy has level("A") = 1 and level("B") = 1 although "B" is
still "A"'s parent, so level(child) = level(parent) + 1 does not survive
the re-parenting of "B" — refuting the claim that the level equations
remain true after every sequence of addEdge calls. -/
theorem C9_counterexample :
    hierParent (applyAdds [("A", some "B"), ("B", some "C")] []) "A" = some (some "B") ∧
    hierLevel (applyAdds [("A", some "B"), ("B", some "C")] []) "B" = some 1 ∧
    hierLevel (applyAdds [("A", some "B"), ("B", some "C")] []) "A" = some 1 ∧
    hierLevel (applyAdds [("A", some "B"), ("B", some "C")] []) "A" ≠ some (1 + 1) := by
  decide

/-- C9 (amended): at insertion time the level equations do hold — after
addEdge(child, parent) with child ≠ parent the stored state has
level(child) = level(parent) + 1, an unseen parent is first created as a
root with level 0, an edge with no parent gets level 0, and every
no-parent category of a hierarchy built by any sequence of addEdge calls
has level 0.  What the code does not do is keep level(child) =
level(parent) + 1 true under later re-parenting of the parent (see the
counterexample). -/
theorem C9_addEdge_levels (h : Hier) (c p : String) (hcp : c ≠ p) :
    (∃ L, hierLevel (add_category_hierarchy h c (some p)) p = some L ∧
          hierLevel (add_category_hierarchy h c (some p)) c = some (L + 1)) ∧
    (hierLookup h p = none →
      hierLookup (add_category_hierarchy h c (some p)) p = some (none, 0)) ∧
    (hierLevel (add_category_hierarchy h c none) c = some 0) ∧
    (∀ ops cat l, hierLookup (applyAdds ops []) cat = some (none, l) → l = 0) := by
  have hpc : p ≠ c := Ne.symm hcp
  refine ⟨?_, ?_, ?_, ?_⟩
  · cases hp : hierLookup h p with
    | some pr =>
      obtain ⟨pf, plev⟩ := pr
      refine ⟨plev, ?_, ?_⟩
      · rw [add_category_hierarchy, hp, hierLevel,
          hierLookup_upsert_other _ _ _ _ hpc, hp]
        rfl
      · rw [add_category_hierarchy, hp, hierLevel, hierLookup_upsert_self]
        rfl
    | none =>
      refine ⟨0, ?_, ?_⟩
      · rw [add_category_hierarchy, hp, hierLevel,
          hierLookup_upsert_other _ _ _ _ hpc, hierLookup_upsert_self]
        rfl
      · rw [add_category_hierarchy, hp, hierLevel, hierLookup_upsert_self]
        rfl
  · intro hp
    rw [add_category_hierarchy, hp, hierLookup_upsert_other _ _ _ _ hpc,
      hierLookup_upsert_self]
  · rw [add_category_hierarchy, hierLevel, hierLookup_upsert_self]
    rfl
  · intro ops cat l
    exact applyAdds_root_level ops []
      (by intro c' l' hc'; simp [hierLookup, List.find?] at hc') cat l

/-- C9 witness: the amended statement applied to the concrete edge
addEdge("Restaurants", "Food") on the empty hierarchy. -/
theorem C9_addEdge_levels_witness :
    (∃ L, hierLevel (add_category_hierarchy [] "Restaurants" (some "Food")) "Food" = some L ∧
          hierLevel (add_category_hierarchy [] "Restaurants" (some "Food")) "Restaurants" = some (L + 1)) ∧
    (hierLookup ([] : Hier) "Food" = none →
      hierLookup (add_category_hierarchy [] "Restaurants" (some "Food")) "Food" = some (none, 0)) ∧
    (hierLevel (add_category_hierarchy [] "Restaurants" none) "Restaurants" = some 0) ∧
    (∀ ops cat l, hierLookup (applyAdds ops []) cat = some (none, l) → l = 0) :=
  C9_addEdge_levels [] "Restaurants" "Food" (by decide)

/-- C1 counterexample: with one stored transaction in category "A" and one
in "B", calling the database operation merge_categories({"A","B"}, "A")
directly — although "A" is in the merge set — mutates the store and
reports 2, not the claimed zero-update count of 0. -/
theorem C1_counterexample :
    "A" ∈ ["A", "B"] ∧
    (merge_categories mergeStore ["A", "B"] "A").2 = 2 ∧
    (merge_categories mergeStore ["A", "B"] "A").1 ≠ mergeStore := by
  decide

/-- C1 (amended): the self-target merge is rejected before any mutation,
but by the views.py caller, not by the ledger operation: when the target
is in the merge set the UI path returns the store unchanged with no count
(it shows an error instead of reporting 0).  merge_categories itself has
no guard — it always rewrites every row whose category is in the merge
set and reports the number of matched rows. -/
theorem C1_merge_self_target_guard (store : List StoredTxn) (cats : List String)
    (target : String) (h : target ∈ cats) :
    merge_categories_ui store cats target = (store, none) ∧
    (merge_categories store cats target).2 =
      (store.filter (fun r => cats.contains r.category)).length ∧
    (merge_categories store cats target).1 =
      store.map (fun r =>
        if cats.contains r.category then { r with category := target } else r) := by
  refine ⟨?_, rfl, rfl⟩
  unfold merge_categories_ui
  rw [if_pos]
  exact List.elem_iff.mpr h

/-- C1 witness: the amended guard statement at the concrete merge of
{"A","B"} into "A" over the two-row store. -/
theorem C1_merge_self_target_guard_witness :
    merge_categories_ui mergeStore ["A", "B"] "A" = (mergeStore, none) ∧
    (merge_categories mergeStore ["A", "B"] "A").2 =
      (mergeStore.filter (fun r => ["A", "B"].contains r.category)).length ∧
    (merge_categories mergeStore ["A", "B"] "A").1 =
      mergeStore.map (fun r =>
        if ["A", "B"].contains r.category then { r with category := "A" } else r) :=
  C1_merge_self_target_guard mergeStore ["A", "B"] "A" (by decide)

/-- C3: evaluating the Capital One branch refutes the blank-cell claim in
the code as written.  A row with Debit 5.00 and a blank Credit cell is not
parsed to amount 0 − 5 = −5: the blank cell becomes a truthy NaN, the
debit/credit subtraction yields Decimal('NaN'), deriving the transaction
type from the NaN amount raises InvalidOperation, and the row is skipped,
so the file parses to no transactions at all.  With an explicit 0 in the
Credit column the same row parses to amount credit − debit = −5 with a
negative (Sale) sign, which is the behaviour the claim describes. -/
theorem C3_blank_debit_credit :
    parse_csv_generic capOneBlankCreditCsv "capital_one" = [] ∧
    parse_csv_generic capOneZeroCreditCsv "capital_one" =
      [{ transaction_date := ⟨2024, 1, 15⟩, post_date := ⟨2024, 1, 16⟩,
         description := "STORE", category := "Food", transaction_type := "Sale",
         amount := DecVal.num (mkRat (-5) 1), memo := none, id := none }] := by
  constructor
  · decide
  · decide

/-- C2 counterexample: on "X,Y,Z\n1,2,3" no header-based format's required
columns match and the first line is not date/amount shaped, so the claim
(mirrored by `specDetect`) requires NotDetected — but detect_csv_format
returns the header-less format, because that registry entry's empty
required-column set is a subset of every header and is reached inside the
header loop itself. -/
theorem C2_counterexample :
    detect_csv_format unknownHeaderCsv = some "wells_fargo_headerless" ∧
    specDetect unknownHeaderCsv = none := by
  decide

/-- C2 (amended): detect checks every registry entry's required-column
set in registry order, first match winning — including the header-less
entry, whose empty required-column set matches every parsed header.  So
on any non-empty parseable text detection returns the first of chase,
bank_of_america, american_express, wells_fargo whose required columns are
all present, and otherwise always classifies as the header-less format:
it never returns NotDetected, never reaches the dedicated header-less
heuristic, and can never return capital_one (registered after the
header-less entry). -/
theorem C2_detect_registry_scan (content : String)
    (h1 : pyStrip content ≠ "") (h2 : csvCells content ≠ []) :
    ∃ f, detect_csv_format content = some f ∧ f ≠ "capital_one" := by
  unfold detect_csv_format
  rw [if_neg h1]
  cases hc : csvCells content with
  | nil => exact absurd hc h2
  | cons header rest =>
    have hwfh : (wellsFargoHeaderlessSpec.required_columns.all (fun c => decide (c ∈ header))) = true := rfl
    by_cases b1 : (chaseSpec.required_columns.all (fun c => decide (c ∈ header))) = true
    · exact ⟨"chase", by simp [formats, List.find?_cons, b1], by decide⟩
    · have b1' : (chaseSpec.required_columns.all (fun c => decide (c ∈ header))) = false := by
        simpa using b1
      by_cases b2 : (bankOfAmericaSpec.required_columns.all (fun c => decide (c ∈ header))) = true
      · exact ⟨"bank_of_america", by simp [formats, List.find?_cons, b1', b2], by decide⟩
      · have b2' : (bankOfAmericaSpec.required_columns.all (fun c => decide (c ∈ header))) = false := by
          simpa using b2
        by_cases b3 : (americanExpressSpec.required_columns.all (fun c => decide (c ∈ header))) = true
        · exact ⟨"american_express", by simp [formats, List.find?_cons, b1', b2', b3], by decide⟩
        · have b3' : (americanExpressSpec.required_columns.all (fun c => decide (c ∈ header))) = false := by
            simpa using b3
          by_cases b4 : (wellsFargoSpec.required_columns.all (fun c => decide (c ∈ header))) = true
          · exact ⟨"wells_fargo", by simp [formats, List.find?_cons, b1', b2', b3', b4], by decide⟩
          · have b4' : (wellsFargoSpec.required_columns.all (fun c => decide (c ∈ header))) = false := by
              simpa using b4
            exact ⟨"wells_fargo_headerless",
              by simp [formats, List.find?_cons, b1', b2', b3', b4', hwfh], by decide⟩

/-- C2 witness: the amended statement applied to the concrete unmatched
header file. -/
theorem C2_detect_registry_scan_witness :
    ∃ f, detect_csv_format unknownHeaderCsv = some f ∧ f ≠ "capital_one" :=
  C2_detect_registry_scan unknownHeaderCsv (by decide) (by decide)

theorem mem_insertRows : ∀ (ts : List Transaction) (store : List StoredTxn)
    (nextId : Nat) (r : StoredTxn), r ∈ store → r ∈ insertRows store nextId ts := by
  intro ts
  induction ts with
  | nil => intro store n r hr; simpa [insertRows] using hr
  | cons t ts ih =>
    intro store n r hr
    rw [insertRows]
    exact ih _ _ _ (List.mem_append_left _ hr)

theorem storedAmount_of_pyFloat (a : DecVal) (p : PyFloat)
    (h : pyFloat a = Except.ok p) : storedAmount a = p := by
  cases a with
  | snan => exact Except.noConfusion h
  | num q => exact Except.ok.inj h
  | nan => exact Except.ok.inj h
  | inf neg => exact Except.ok.inj h

theorem pyFloat_ok_of_not_isNan (a : DecVal) (h : a.isNan = false) :
    ∃ p, pyFloat a = Except.ok p ∧ p ≠ PyFloat.fnan := by
  cases a with
  | num q =>
    refine ⟨storedAmount (DecVal.num q), rfl, ?_⟩
    show (if floatOverflowBound ≤ q then PyFloat.finf false
        else if q ≤ -floatOverflowBound then PyFloat.finf true
        else PyFloat.fin (floatRound q)) ≠ PyFloat.fnan
    split
    · exact fun hc => PyFloat.noConfusion hc
    · split
      · exact fun hc => PyFloat.noConfusion hc
      · exact fun hc => PyFloat.noConfusion hc
  | nan => simp [DecVal.isNan] at h
  | snan => simp [DecVal.isNan] at h
  | inf neg => exact ⟨PyFloat.finf neg, rfl, fun hc => PyFloat.noConfusion hc⟩

theorem sqlEqAmount_self (p : PyFloat) (h : p ≠ PyFloat.fnan) :
    sqlEqAmount p p = true := by
  cases p with
  | fin q => simp [sqlEqAmount]
  | fnan => exact absurd rfl h
  | finf neg => simp [sqlEqAmount]

theorem exists_row_insertRows : ∀ (ts : List Transaction) (store : List StoredTxn)
    (nextId : Nat) (t : Transaction) (p : PyFloat), t ∈ ts →
    pyFloat t.amount = Except.ok p → p ≠ PyFloat.fnan →
    ∃ r ∈ insertRows store nextId ts, txnMatchesExact t p r = true := by
  intro ts
  induction ts with
  | nil => intro _ _ t p h _ _; cases h
  | cons t0 ts ih =>
    intro store n t p h hp hpn
    rw [insertRows]
    rcases List.mem_cons.mp h with rfl | h'
    · refine ⟨toStored n t, ?_, ?_⟩
      · exact mem_insertRows ts _ _ _ (List.mem_append_right _ (List.mem_singleton.mpr rfl))
      · simp [txnMatchesExact, toStored, storedAmount_of_pyFloat _ _ hp,
          sqlEqAmount_self p hpn]
    · exact ih _ _ _ _ h' hp hpn

theorem transaction_exists_of_match (store : List StoredTxn) (t : Transaction)
    (p : PyFloat) (hp : pyFloat t.amount = Except.ok p)
    (r : StoredTxn) (hr : r ∈ store) (hm : txnMatchesExact t p r = true) :
    transaction_exists store t = Except.ok true := by
  unfold transaction_exists
  rw [hp]
  have hany : store.any (txnMatchesExact t p) = true := List.any_eq_true.mpr ⟨r, hr, hm⟩
  simp [hany]

theorem find_potential_ok (store : List StoredTxn) (t : Transaction) (p : PyFloat)
    (hp : pyFloat t.amount = Except.ok p) :
    ∃ l, find_potential_duplicates store t 1 = Except.ok l := by
  unfold find_potential_duplicates
  rw [hp]
  exact ⟨_, rfl⟩

theorem analyzeGo_all_dup (store : List StoredTxn) :
    ∀ ts : List Transaction,
      (∀ t ∈ ts, transaction_exists store t = Except.ok true ∧
        ∃ l, find_potential_duplicates store t 1 = Except.ok l) →
      ∃ dups, analyzeGo store ts = Except.ok ([], dups) := by
  intro ts
  induction ts with
  | nil => exact fun _ => ⟨[], rfl⟩
  | cons t ts ih =>
    intro hall
    obtain ⟨hex, l, hl⟩ := hall t (List.mem_cons_self t ts)
    obtain ⟨dups, hd⟩ := ih (fun u hu => hall u (List.mem_cons_of_mem t hu))
    refine ⟨(t, l) :: dups, ?_⟩
    rw [analyzeGo, hex, hl, hd]

/-- C6 counterexample: a chase file whose one row carries the quiet-NaN
amount literal "NaN123" parses to a NaN-amount transaction, and
re-classifying that parse even against a store holding a row for it
still reports it as New — `float('nan')` binds as SQL NULL, which the
`amount = ?` equality can never match (and which the NOT NULL amount
column would not even let the insert batch store), so the second pass
yields 1 New classification, not 0. -/
theorem C6_counterexample :
    parse_csv_generic nanChaseCsv "chase" = [nanChaseTxn] ∧
    analyze_duplicates (insertRows [] 1 (parse_csv_generic nanChaseCsv "chase"))
        (parse_csv_generic nanChaseCsv "chase")
      = Except.ok { new_transactions := [nanChaseTxn], new_count := 1,
                    duplicates := [], duplicate_count := 0, total_count := 1 } :=
  ⟨by decide, by rfl⟩

/-- C6 (amended): when no parsed amount is a Decimal NaN, re-importing
the same CSV against a store that already holds the first import's rows
classifies nothing as new — every transaction of the second (identical)
parse has an exact stored match under the SQL amount equality, so
_analyze_duplicates reports new_count = 0 with an empty new-transaction
list.  A quiet-NaN amount (which a format with a type column can parse)
breaks this: its float binds as SQL NULL, so it is classified New on
every re-import. -/
theorem C6_idempotent_reimport (content fmt : String) (store : List StoredTxn)
    (nextId : Nat)
    (hnn : (parse_csv_generic content fmt).all (fun t => !t.amount.isNan) = true) :
    ∃ dups, analyze_duplicates (insertRows store nextId (parse_csv_generic content fmt))
        (parse_csv_generic content fmt)
      = Except.ok { new_transactions := [], new_count := 0, duplicates := dups,
                    duplicate_count := dups.length,
                    total_count := (parse_csv_generic content fmt).length } := by
  have hall : ∀ t ∈ parse_csv_generic content fmt,
      transaction_exists (insertRows store nextId (parse_csv_generic content fmt)) t
          = Except.ok true ∧
      ∃ l, find_potential_duplicates
          (insertRows store nextId (parse_csv_generic content fmt)) t 1 = Except.ok l := by
    intro t ht
    have hnn' : t.amount.isNan = false := by
      have := List.all_eq_true.mp hnn t ht
      simpa using this
    obtain ⟨p, hp, hpn⟩ := pyFloat_ok_of_not_isNan t.amount hnn'
    obtain ⟨r, hr, hm⟩ :=
      exists_row_insertRows (parse_csv_generic content fmt) store nextId t p ht hp hpn
    exact ⟨transaction_exists_of_match _ t p hp r hr hm, find_potential_ok _ t p hp⟩
  obtain ⟨dups, hgo⟩ := analyzeGo_all_dup _ (parse_csv_generic content fmt) hall
  refine ⟨dups, ?_⟩
  rw [analyze_duplicates, hgo]
  rfl

/-- C6 witness: the amended statement at the one-row Chase scenario
against the empty store. -/
theorem C6_idempotent_reimport_witness :
    (parse_csv_generic oneRowChaseCsv "chase").all (fun t => !t.amount.isNan) = true ∧
    ∃ dups, analyze_duplicates (insertRows [] 1 (parse_csv_generic oneRowChaseCsv "chase"))
        (parse_csv_generic oneRowChaseCsv "chase")
      = Except.ok { new_transactions := [], new_count := 0, duplicates := dups,
                    duplicate_count := dups.length,
                    total_count := (parse_csv_generic oneRowChaseCsv "chase").length } :=
  ⟨by decide, C6_idempotent_reimport oneRowChaseCsv "chase" [] 1 (by decide)⟩

theorem except_bind_ok {ε α β : Type} (x : Except ε α) (f : α → Except ε β) (b : β)
    (h : (x >>= f) = Except.ok b) : ∃ a, x = Except.ok a ∧ f a = Except.ok b := by
  cases x with
  | error e => simp [Bind.bind, Except.bind] at h
  | ok a => exact ⟨a, rfl, by simpa [Bind.bind, Except.bind] using h⟩

theorem mkTransaction_some_amount (td pd : Date) (descr cat ttype : String) (amt : DecVal)
    (memo : Option String) (id : Option Nat) (t : Transaction)
    (h : mkTransaction td pd descr cat ttype amt memo id = some t) :
    t.amount = amt ∧ amt ≠ DecVal.snan ∧ amt ≠ DecVal.num 0 := by
  unfold mkTransaction at h
  split at h
  · cases h
  · split at h
    · cases h
    · next hsn =>
      split at h
      · cases h
      · next hz => cases h; exact ⟨rfl, hsn, hz⟩

theorem rowParse_ok_amount (ft : String) (spec : FormatSpec) (header row : List String)
    (t : Transaction) (h : rowParse ft spec header row = Except.ok t) :
    t.amount ≠ DecVal.snan ∧ t.amount ≠ DecVal.num 0 := by
  unfold rowParse at h
  repeat' split at h
  all_goals try exact Except.noConfusion h
  rename_i heq
  cases h
  obtain ⟨ha, hs, hz⟩ := mkTransaction_some_amount _ _ _ _ _ _ _ _ _ heq
  exact ⟨ha ▸ hs, ha ▸ hz⟩

theorem rowParseHeaderless_ok_amount (spec : FormatSpec) (row : List String)
    (t : Transaction) (h : rowParseHeaderless spec row = Except.ok t) :
    t.amount ≠ DecVal.snan ∧ t.amount ≠ DecVal.num 0 := by
  unfold rowParseHeaderless at h
  repeat' split at h
  all_goals try exact Except.noConfusion h
  rename_i heq
  cases h
  obtain ⟨ha, hs, hz⟩ := mkTransaction_some_amount _ _ _ _ _ _ _ _ _ heq
  exact ⟨ha ▸ hs, ha ▸ hz⟩

theorem mem_rowLoop (ft : String) (spec : FormatSpec) (header : List String) :
    ∀ rows t, t ∈ rowLoop ft spec header rows →
      ∃ r ∈ rows, rowParse ft spec header r = Except.ok t := by
  intro rows
  induction rows with
  | nil => intro t h; cases h
  | cons r rs ih =>
    intro t h
    rw [rowLoop] at h
    cases hr : rowParse ft spec header r with
    | ok t0 =>
      rw [hr] at h
      rcases List.mem_cons.mp h with rfl | h'
      · exact ⟨r, List.mem_cons_self _ _, hr⟩
      · obtain ⟨r', hr', h''⟩ := ih t h'
        exact ⟨r', List.mem_cons_of_mem _ hr', h''⟩
    | error e =>
      rw [hr] at h
      obtain ⟨r', hr', h''⟩ := ih t h
      exact ⟨r', List.mem_cons_of_mem _ hr', h''⟩

theorem mem_rowLoopHeaderless (spec : FormatSpec) :
    ∀ rows t, t ∈ rowLoopHeaderless spec rows →
      ∃ r ∈ rows, rowParseHeaderless spec r = Except.ok t := by
  intro rows
  induction rows with
  | nil => intro t h; cases h
  | cons r rs ih =>
    intro t h
    rw [rowLoopHeaderless] at h
    cases hr : rowParseHeaderless spec r with
    | ok t0 =>
      rw [hr] at h
      rcases List.mem_cons.mp h with rfl | h'
      · exact ⟨r, List.mem_cons_self _ _, hr⟩
      · obtain ⟨r', hr', h''⟩ := ih t h'
        exact ⟨r', List.mem_cons_of_mem _ hr', h''⟩
    | error e =>
      rw [hr] at h
      obtain ⟨r', hr', h''⟩ := ih t h
      exact ⟨r', List.mem_cons_of_mem _ hr', h''⟩

theorem parse_csv_generic_mem_amount (content fmt : String) (t : Transaction)
    (h : t ∈ parse_csv_generic content fmt) :
    t.amount ≠ DecVal.snan ∧ t.amount ≠ DecVal.num 0 := by
  unfold parse_csv_generic at h
  by_cases hempty : pyStrip content = ""
  · rw [if_pos hempty] at h; cases h
  · rw [if_neg hempty] at h
    split at h
    · cases h
    · rename_i spec hlf
      by_cases hh : spec.headerless = true
      · rw [if_pos hh] at h
        unfold parse_headerless_csv at h
        obtain ⟨r, -, hr⟩ := mem_rowLoopHeaderless spec (csvCells content) t h
        exact rowParseHeaderless_ok_amount spec r t hr
      · rw [if_neg hh] at h
        split at h
        · cases h
        · rename_i header rows hcc
          by_cases hreq : (spec.required_columns.all fun c => header.contains c) = true
          · rw [if_pos hreq] at h
            obtain ⟨r, -, hr⟩ := mem_rowLoop fmt spec header rows t h
            exact rowParse_ok_amount fmt spec header r t hr
          · rw [if_neg hreq] at h; cases h

/-- C5 counterexample: the claimed invariant — for every parsed
transaction, is_expense() returns exactly `amount < 0` and disagrees with
is_payment() — fails on a real parse.  Decimal also accepts quiet-NaN
literals, chase's Type column bypasses the sign derivation, and
`NaN == 0` is quietly False, so the "NaN123" Amount cell yields a parsed
transaction on which is_expense() and is_payment() raise InvalidOperation
instead of returning a boolean. -/
theorem C5_counterexample :
    parse_csv_generic nanChaseCsv "chase" = [nanChaseTxn] ∧
    nanChaseTxn.is_expense = Except.error "InvalidOperation: ordering a NaN Decimal" ∧
    nanChaseTxn.is_payment = Except.error "InvalidOperation: ordering a NaN Decimal" :=
  ⟨by decide, rfl, rfl⟩

/-- C5 (amended): every transaction produced by parsing has an amount
that is neither a signaling NaN nor zero (the constructor rejects both);
whenever the amount is not a NaN, is_expense() returns exactly the
Decimal comparison "amount < 0" and always disagrees with is_payment();
but for a quiet-NaN amount — which a format with a type column can parse
— both is_expense() and is_payment() raise InvalidOperation rather than
return, so the invariant does not hold for every parsed transaction. -/
theorem C5_sign_invariant (content fmt : String) (t : Transaction)
    (h : t ∈ parse_csv_generic content fmt) :
    t.amount ≠ DecVal.snan ∧ t.amount ≠ DecVal.num 0 ∧
    (t.amount.isNan = false →
      t.is_expense = Except.ok t.amount.ltZero ∧
      t.is_payment = Except.ok t.amount.gtZero ∧
      t.amount.ltZero ≠ t.amount.gtZero) ∧
    (t.amount.isNan = true →
      t.is_expense = Except.error "InvalidOperation: ordering a NaN Decimal" ∧
      t.is_payment = Except.error "InvalidOperation: ordering a NaN Decimal") := by
  obtain ⟨hs, hz⟩ := parse_csv_generic_mem_amount content fmt t h
  refine ⟨hs, hz, ?_, ?_⟩
  · intro hnn
    cases ha : t.amount with
    | num q =>
      have hq : q ≠ 0 := fun h0 => hz (by rw [ha, h0])
      refine ⟨by simp [Transaction.is_expense, ha, DecVal.ltZero],
        by simp [Transaction.is_payment, ha, DecVal.gtZero], ?_⟩
      simp only [DecVal.ltZero, DecVal.gtZero]
      rcases lt_trichotomy q 0 with hlt | heq | hgt
      · simp [hlt, asymm hlt]
      · exact absurd heq hq
      · simp [hgt, asymm hgt]
    | nan => simp [ha, DecVal.isNan] at hnn
    | snan => exact absurd ha hs
    | inf neg =>
      refine ⟨by simp [Transaction.is_expense, ha, DecVal.ltZero],
        by simp [Transaction.is_payment, ha, DecVal.gtZero], ?_⟩
      cases neg <;> simp [DecVal.ltZero, DecVal.gtZero]
  · intro hn
    cases ha : t.amount with
    | num q => simp [ha, DecVal.isNan] at hn
    | nan =>
      exact ⟨by simp [Transaction.is_expense, ha], by simp [Transaction.is_payment, ha]⟩
    | snan => exact absurd ha hs
    | inf neg => simp [ha, DecVal.isNan] at hn

/-- C5 witness: the amended invariant at the transaction the one-row
Chase scenario parses to. -/
theorem C5_sign_invariant_witness :
    starbucksTxn.amount ≠ DecVal.snan ∧ starbucksTxn.amount ≠ DecVal.num 0 ∧
    (starbucksTxn.amount.isNan = false →
      starbucksTxn.is_expense = Except.ok starbucksTxn.amount.ltZero ∧
      starbucksTxn.is_payment = Except.ok starbucksTxn.amount.gtZero ∧
      starbucksTxn.amount.ltZero ≠ starbucksTxn.amount.gtZero) ∧
    (starbucksTxn.amount.isNan = true →
      starbucksTxn.is_expense = Except.error "InvalidOperation: ordering a NaN Decimal" ∧
      starbucksTxn.is_payment = Except.error "InvalidOperation: ordering a NaN Decimal") :=
  C5_sign_invariant oneRowChaseCsv "chase" starbucksTxn (by decide)

theorem rowLoop_eq_filterMap (ft : String) (spec : FormatSpec) (header : List String) :
    ∀ rows, rowLoop ft spec header rows
      = rows.filterMap (fun r => (rowParse ft spec header r).toOption) := by
  intro rows
  induction rows with
  | nil => rfl
  | cons r rs ih =>
    rw [rowLoop, List.filterMap_cons]
    cases hr : rowParse ft spec header r with
    | ok t => simp [Except.toOption, ih]
    | error e => simp [Except.toOption, ih]

theorem rowLoopHeaderless_eq_filterMap (spec : FormatSpec) :
    ∀ rows, rowLoopHeaderless spec rows
      = rows.filterMap (fun r => (rowParseHeaderless spec r).toOption) := by
  intro rows
  induction rows with
  | nil => rfl
  | cons r rs ih =>
    rw [rowLoopHeaderless, List.filterMap_cons]
    cases hr : rowParseHeaderless spec r with
    | ok t => simp [Except.toOption, ih]
    | error e => simp [Except.toOption, ih]

theorem lookupFormat_eq_none_of_unknown (fmt : String) (h : fmt ∉ formatNames) :
    lookupFormat fmt = none := by
  unfold lookupFormat
  rw [List.find?_eq_none.mpr]
  · rfl
  · intro p hp
    fin_cases hp <;> simpa [formatNames] using fun hc => h (by simp [formatNames, ← hc])

/-- C7: the row normalizer is total and recovers from every row-level
problem.  A three-row Chase file whose middle row has Amount "abc" parses
to exactly the two well-formed transactions; empty or whitespace-only
input and an unknown format name give the empty list rather than an
error; the row loops are exactly a filterMap that keeps the rows whose
normalization succeeds, in order, so a file where every row fails yields
the empty list. -/
theorem C7_row_level_recovery :
    (parse_csv_generic threeRowChaseCsv "chase").length = 2 ∧
    parse_csv_generic threeRowChaseCsv "chase" = [coffeeTxn, grocerTxn] ∧
    (∀ fmt, parse_csv_generic "" fmt = []) ∧
    (∀ fmt, parse_csv_generic "   \n  " fmt = []) ∧
    (∀ content fmt, fmt ∉ formatNames → parse_csv_generic content fmt = []) ∧
    (∀ ft spec header rows, rowLoop ft spec header rows
      = rows.filterMap (fun r => (rowParse ft spec header r).toOption)) ∧
    (∀ spec rows, rowLoopHeaderless spec rows
      = rows.filterMap (fun r => (rowParseHeaderless spec r).toOption)) ∧
    (∀ ft spec header rows, (∀ r ∈ rows, (rowParse ft spec header r).toOption = none) →
      rowLoop ft spec header rows = []) := by
  refine ⟨by decide, by decide, fun fmt => rfl, fun fmt => rfl, ?_, ?_, ?_, ?_⟩
  · intro content fmt hfmt
    unfold parse_csv_generic
    split
    · rfl
    · rw [lookupFormat_eq_none_of_unknown fmt hfmt]
  · exact fun ft spec header rows => rowLoop_eq_filterMap ft spec header rows
  · exact fun spec rows => rowLoopHeaderless_eq_filterMap spec rows
  · intro ft spec header rows hall
    rw [rowLoop_eq_filterMap]
    exact List.filterMap_eq_nil_iff.mpr hall

/-- C7 witness: the unknown-format and all-rows-fail components at
concrete inputs: a two-line file with a format name outside the registry
parses to nothing. -/
theorem C7_row_level_recovery_witness :
    parse_csv_generic "a,b\n1,2" "mystery_bank" = [] ∧
    rowLoop "chase" chaseSpec ["Amount"] [["abc"]] = [] :=
  ⟨(C7_row_level_recovery.2.2.2.2.1) "a,b\n1,2" "mystery_bank" (by decide),
   (C7_row_level_recovery.2.2.2.2.2.2.2) "chase" chaseSpec ["Amount"] [["abc"]] (by decide)⟩

theorem insertBatchGo_error_committed (fails : Nat → Bool) :
    ∀ (ts : List Transaction) (i : Nat) (c : DbConn) (ids : List Nat) (c' : DbConn),
      insertBatchGo fails ts i c ids = Except.error c' → c'.committed = c.committed := by
  intro ts
  induction ts with
  | nil => intro i c ids c' h; cases h
  | cons t ts ih =>
    intro i c ids c' h
    rw [insertBatchGo] at h
    by_cases hf : fails i = true
    · rw [if_pos hf] at h; cases h; rfl
    · rw [if_neg hf] at h
      simp only [connExecInsert] at h
      exact ih (i + 1)
        { committed := c.committed, pending := c.pending ++ [toStored c.nextId t],
          nextId := c.nextId + 1 } (ids ++ [c.nextId]) c' h

theorem insertBatchGo_ok_pending (fails : Nat → Bool) :
    ∀ (ts : List Transaction) (i : Nat) (c : DbConn) (ids : List Nat)
      (c' : DbConn) (ids' : List Nat),
      insertBatchGo fails ts i c ids = Except.ok (c', ids') →
      c'.committed = c.committed ∧ c'.pending = c.pending ++ batchRows c.nextId ts := by
  intro ts
  induction ts with
  | nil =>
    intro i c ids c' ids' h
    cases h
    exact ⟨rfl, by simp [batchRows]⟩
  | cons t ts ih =>
    intro i c ids c' ids' h
    rw [insertBatchGo] at h
    by_cases hf : fails i = true
    · rw [if_pos hf] at h; cases h
    · rw [if_neg hf] at h
      simp only [connExecInsert] at h
      obtain ⟨hc, hp⟩ := ih (i + 1)
        { committed := c.committed, pending := c.pending ++ [toStored c.nextId t],
          nextId := c.nextId + 1 } (ids ++ [c.nextId]) c' ids' h
      refine ⟨hc, ?_⟩
      rw [hp]
      simp [connExecInsert, batchRows, List.append_assoc]

theorem insertBatchGo_fails (fails : Nat → Bool) :
    ∀ (ts : List Transaction) (i : Nat) (c : DbConn) (ids : List Nat),
      (∃ j, j < ts.length ∧ fails (i + j) = true) →
      ∃ c', insertBatchGo fails ts i c ids = Except.error c' := by
  intro ts
  induction ts with
  | nil =>
    intro i c ids ⟨j, hj, _⟩
    exact absurd hj (by simp)
  | cons t ts ih =>
    intro i c ids ⟨j, hj, hfj⟩
    rw [insertBatchGo]
    by_cases hf : fails i = true
    · rw [if_pos hf]; exact ⟨c, rfl⟩
    · rw [if_neg hf]
      simp only [connExecInsert]
      apply ih
      cases j with
      | zero => exact absurd (by simpa using hfj) hf
      | succ j' =>
        refine ⟨j', by simpa using hj, ?_⟩
        have : i + (j' + 1) = i + 1 + j' := by omega
        rw [← this]
        exact hfj

/-- C8: batch insertion is atomic per call — the committed store either
stays exactly as it was or gains exactly the whole batch; and whenever
any execute in the batch fails, the connection's rollback leaves the
store unchanged and the call reports no ids. -/
theorem C8_batch_atomicity (fails : Nat → Bool) (store : List StoredTxn)
    (nextId : Nat) (ts : List Transaction) :
    ((insert_transactions_batch fails store nextId ts).1 = store ∨
     (insert_transactions_batch fails store nextId ts).1 = store ++ batchRows nextId ts) ∧
    ((∃ i, i < ts.length ∧ fails i = true) →
      insert_transactions_batch fails store nextId ts = (store, [])) := by
  constructor
  · unfold insert_transactions_batch
    by_cases hts : ts = []
    · rw [if_pos hts]; left; rfl
    · rw [if_neg hts]
      cases hgo : insertBatchGo fails ts 0 (connOpen store nextId) [] with
      | ok p =>
        obtain ⟨c2, ids2⟩ := p
        right
        obtain ⟨hc, hp⟩ := insertBatchGo_ok_pending fails ts 0 _ [] c2 ids2 hgo
        simp only [connCommit, connOpen] at hc hp ⊢
        rw [hc, hp]
        simp
      | error c' =>
        left
        have hcom := insertBatchGo_error_committed fails ts 0 _ [] c' hgo
        simpa [connRollback, connOpen] using hcom
  · intro ⟨i, hi, hfi⟩
    unfold insert_transactions_batch
    have hts : ts ≠ [] := by
      intro h
      rw [h] at hi
      exact absurd hi (by simp)
    rw [if_neg hts]
    obtain ⟨c', hgo⟩ := insertBatchGo_fails fails ts 0 (connOpen store nextId) []
      ⟨i, hi, by simpa using hfi⟩
    rw [hgo]
    have hcom := insertBatchGo_error_committed fails ts 0 _ [] c' hgo
    simp only [connRollback, connOpen] at hcom ⊢
    rw [hcom]

/-- C8 witness: a two-transaction batch whose second execute fails leaves
the empty store empty and returns no ids. -/
theorem C8_batch_atomicity_witness :
    insert_transactions_batch (fun i => decide (i = 1)) [] 1 batchTxns = ([], []) :=
  (C8_batch_atomicity (fun i => decide (i = 1)) [] 1 batchTxns).2 ⟨1, by decide, by decide⟩

theorem parentIter_add (h : Hier) :
    ∀ (a b : Nat) (c : String),
      parentIter h (a + b) c = (parentIter h a c).bind (fun x => parentIter h b x) := by
  intro a
  induction a with
  | zero => intro b c; simp [parentIter, Nat.zero_add]
  | succ a ih =>
    intro b c
    have hidx : a + 1 + b = (a + b) + 1 := by omega
    cases hp : parentOf h c with
    | none => simp [hidx, parentIter, hp]
    | some p => simp [hidx, parentIter, hp, ih b p]

theorem step_of_parentIter (h : Hier) :
    ∀ (d : Nat) (x y : String), 0 < d → parentIter h d x = some y →
      Relation.TransGen (hierStep h) x y := by
  intro d
  induction d with
  | zero => intro x y h0; exact absurd h0 (by simp)
  | succ n ih =>
    intro x y _ hit
    rw [parentIter] at hit
    cases hp : parentOf h x with
    | none => rw [hp] at hit; cases hit
    | some p =>
      rw [hp] at hit
      cases Nat.eq_zero_or_pos n with
      | inl h0 =>
        subst h0
        cases hit
        exact Relation.TransGen.single hp
      | inr hpos =>
        exact Relation.TransGen.head hp (ih p y hpos hit)

theorem walk_terminates (h : Hier) (hac : AcyclicHier h) (c : String) :
    ∃ k r, parentIter h k c = some r ∧ parentOf h r = none := by
  by_contra hno
  push_neg at hno
  have hsome : ∀ k, ∃ r, parentIter h k c = some r := by
    intro k
    induction k with
    | zero => exact ⟨c, rfl⟩
    | succ n ihn =>
      obtain ⟨r, hr⟩ := ihn
      obtain ⟨p, hp⟩ := Option.ne_none_iff_exists'.mp (hno n r hr)
      refine ⟨p, ?_⟩
      rw [parentIter_add h n 1 c, hr]
      simp [parentIter, hp]
  classical
  choose g hg using hsome
  have hkey : ∀ k, g k ∈ h.map Prod.fst := by
    intro k
    obtain ⟨p, hp⟩ := Option.ne_none_iff_exists'.mp (hno k (g k) (hg k))
    unfold parentOf at hp
    cases hl : hierLookup h (g k) with
    | none => rw [hl] at hp; cases hp
    | some v =>
      unfold hierLookup at hl
      obtain ⟨q, hq1, hq2⟩ := Option.map_eq_some'.mp hl
      have hqkey : q.1 = g k := by simpa using List.find?_some hq1
      exact hqkey ▸ List.mem_map_of_mem Prod.fst (List.mem_of_find?_eq_some hq1)
  have hinj : ∀ i j, i < j → g i ≠ g j := by
    intro i j hij heq
    have hstep : parentIter h (j - i) (g i) = some (g j) := by
      have h2 : i + (j - i) = j := by omega
      have h1 : parentIter h (i + (j - i)) c = some (g j) := by
        rw [h2]
        exact hg j
      rw [parentIter_add h i (j - i) c, hg i] at h1
      simpa using h1
    have htg : Relation.TransGen (hierStep h) (g i) (g j) :=
      step_of_parentIter h (j - i) (g i) (g j) (by omega) hstep
    rw [← heq] at htg
    exact hac (g i) htg
  have hsub : (Finset.range ((h.map Prod.fst).length + 1)).image g
      ⊆ (h.map Prod.fst).toFinset := by
    intro x hx
    obtain ⟨k, -, rfl⟩ := Finset.mem_image.mp hx
    exact List.mem_toFinset.mpr (hkey k)
  have hcard1 : ((Finset.range ((h.map Prod.fst).length + 1)).image g).card
      = (h.map Prod.fst).length + 1 := by
    rw [Finset.card_image_of_injOn, Finset.card_range]
    intro i _ j _ hij2
    by_contra hne
    rcases lt_or_gt_of_ne hne with hlt | hgt
    · exact hinj i j hlt hij2
    · exact hinj j i hgt hij2.symm
  have hcard2 := Finset.card_le_card hsub
  rw [hcard1] at hcard2
  have hcard3 := List.toFinset_card_le (h.map Prod.fst)
  omega

theorem pathWalk_of_stops (h : Hier) :
    ∀ (k : Nat) (c r : String), parentIter h k c = some r → parentOf h r = none →
      ∃ path, pathWalk h (k + 1) c = some path ∧ path ≠ [] ∧
        path.getLast? = some c ∧ path.head? = some r ∧
        List.Chain' (fun a b => parentOf h b = some a) path := by
  intro k
  induction k with
  | zero =>
    intro c r hit hstop
    cases hit
    refine ⟨[c], ?_, by simp, by simp, by simp, by simp⟩
    rw [pathWalk, hstop]
  | succ n ih =>
    intro c r hit hstop
    rw [parentIter] at hit
    cases hp : parentOf h c with
    | none => rw [hp] at hit; cases hit
    | some p =>
      rw [hp] at hit
      obtain ⟨path, hw, hne, hlast, hhead, hchain⟩ := ih p r hit hstop
      refine ⟨path ++ [c], ?_, by simp, by simp [List.getLast?_concat], ?_, ?_⟩
      · rw [pathWalk, hp]
        show (pathWalk h (n + 1) p).map (fun rest => rest ++ [c]) = some (path ++ [c])
        rw [hw]
        rfl
      · cases path with
        | nil => exact absurd rfl hne
        | cons a t => simpa using hhead
      · rw [List.chain'_append]
        refine ⟨hchain, List.chain'_singleton c, ?_⟩
        intro x hx y hy
        simp at hy
        subst hy
        rw [hlast] at hx
        simp at hx
        subst hx
        exact hp

/-- C10: get_category_path terminates on every hierarchy whose
parent-pointer map is acyclic — some finite fuel makes the while loop
finish — and it returns the path root→…→category: a non-empty list ending
at the requested category, whose head has no parent and in which each
element is the stored parent of the next.  Acyclicity is necessary: the
loop keeps no visited set, and on the concrete two-node parent cycle it
runs forever (no amount of fuel completes). -/
theorem C10_get_category_path_terminates :
    (∀ (h : Hier) (c : String), AcyclicHier h →
      ∃ fuel path, get_category_path h c fuel = some path ∧ path ≠ [] ∧
        path.getLast? = some c ∧
        (∀ r, path.head? = some r → parentOf h r = none) ∧
        List.Chain' (fun a b => parentOf h b = some a) path) ∧
    (∀ fuel, pathWalk cycHier fuel "A" = none) := by
  constructor
  · intro h c hac
    by_cases hc : hierLookup h c = none
    · refine ⟨1, [c], ?_, by simp, by simp, ?_, by simp⟩
      · rw [get_category_path, if_pos hc]
      · intro r hr
        simp at hr
        subst hr
        unfold parentOf
        rw [hc]
    · obtain ⟨k, r, hit, hstop⟩ := walk_terminates h hac c
      obtain ⟨path, hw, hne, hlast, hhead, hchain⟩ := pathWalk_of_stops h k c r hit hstop
      refine ⟨k + 1, path, ?_, hne, hlast, ?_, hchain⟩
      · rw [get_category_path, if_neg hc]
        exact hw
      · intro r' hr'
        rw [hhead] at hr'
        cases hr'
        exact hstop
  · have hAB : ∀ fuel, pathWalk cycHier fuel "A" = none ∧ pathWalk cycHier fuel "B" = none := by
      intro fuel
      induction fuel with
      | zero => exact ⟨rfl, rfl⟩
      | succ n ihn =>
        have hA : parentOf cycHier "A" = some "B" := by decide
        have hB : parentOf cycHier "B" = some "A" := by decide
        constructor
        · rw [pathWalk, hA]
          show (pathWalk cycHier n "B").map (fun rest => rest ++ ["A"]) = none
          rw [ihn.2]
          rfl
        · rw [pathWalk, hB]
          show (pathWalk cycHier n "A").map (fun rest => rest ++ ["B"]) = none
          rw [ihn.1]
          rfl
    exact fun fuel => (hAB fuel).1

theorem diningHier_acyclic : AcyclicHier diningHier := by
  intro c hcyc
  have hstep : ∀ a b, hierStep diningHier a b → diningRank b < diningRank a := by
    intro a b hab
    have hab' : a = "Restaurants" ∧ b = "Food" := by
      unfold hierStep parentOf hierLookup diningHier at hab
      by_cases ha : a = "Food"
      · subst ha
        simp [List.find?] at hab
      · by_cases hr : a = "Restaurants"
        · subst hr
          simp [List.find?] at hab
          exact ⟨rfl, hab.symm⟩
        · have ha' : ("Food" = a) = False := by simp [Ne.symm ha]
          have hr' : ("Restaurants" = a) = False := by simp [Ne.symm hr]
          simp [List.find?, ha', hr'] at hab
    rw [hab'.1, hab'.2]
    decide
  have hlt : ∀ x y, Relation.TransGen (hierStep diningHier) x y →
      diningRank y < diningRank x := by
    intro x y hxy
    induction hxy with
    | single h1 => exact hstep _ _ h1
    | tail _ h2 ih => exact lt_trans (hstep _ _ h2) ih
  exact absurd (hlt c c hcyc) (lt_irrefl _)

/-- C10 witness: the termination statement applied to the concrete acyclic
hierarchy Food → Restaurants. -/
theorem C10_get_category_path_terminates_witness :
    ∃ fuel path, get_category_path diningHier "Restaurants" fuel = some path ∧
      path ≠ [] ∧ path.getLast? = some "Restaurants" ∧
      (∀ r, path.head? = some r → parentOf diningHier r = none) ∧
      List.Chain' (fun a b => parentOf diningHier b = some a) path :=
  C10_get_category_path_terminates.1 diningHier "Restaurants" diningHier_acyclic

theorem roundHalfEven_eq_of_lt_half (q : ℚ) (n : ℤ) (h1 : (n : ℚ) ≤ q)
    (h2 : q < (n : ℚ) + 1) (h3 : q - (n : ℚ) < 1/2) : roundHalfEven q = n := by
  have hfl : ⌊q⌋ = n := Int.floor_eq_iff.mpr ⟨h1, h2⟩
  rw [roundHalfEven, hfl, if_pos h3]

theorem roundHalfEven_eq_of_gt_half (q : ℚ) (n : ℤ) (h1 : (n : ℚ) ≤ q)
    (h2 : q < (n : ℚ) + 1) (h3 : 1/2 < q - (n : ℚ)) : roundHalfEven q = n + 1 := by
  have hfl : ⌊q⌋ = n := Int.floor_eq_iff.mpr ⟨h1, h2⟩
  rw [roundHalfEven, hfl, if_neg (by linarith), if_pos h3]

theorem int_log_eq_of_bounds (b : ℕ) (hb : 1 < b) (r : ℚ) (hr : 0 < r) (e : ℤ)
    (h1 : (b : ℚ) ^ e ≤ r) (h2 : r < (b : ℚ) ^ (e + 1)) : Int.log b r = e := by
  have hb1 : (1 : ℚ) ≤ (b : ℚ) := by exact_mod_cast hb.le
  have hl1 := Int.zpow_log_le_self hb hr
  have hl2 := Int.lt_zpow_succ_log_self hb r
  by_contra hne
  rcases lt_or_gt_of_ne hne with hlt | hgt
  · have hmono : ((b : ℚ)) ^ (Int.log b r + 1) ≤ (b : ℚ) ^ e :=
      zpow_le_zpow_right₀ hb1 (by omega)
    linarith
  · have hmono : ((b : ℚ)) ^ (e + 1) ≤ (b : ℚ) ^ (Int.log b r) :=
      zpow_le_zpow_right₀ hb1 (by omega)
    linarith

theorem c4Amount_pos : (0 : ℚ) < c4Amount := by
  rw [c4Amount, Rat.mkRat_eq_div]
  norm_num

theorem c4Float_pos : (0 : ℚ) < c4Float := by
  rw [c4Float, Rat.mkRat_eq_div]
  norm_num

theorem log2_c4Amount : Int.log 2 c4Amount = -4 := by
  apply int_log_eq_of_bounds 2 (by norm_num) _ c4Amount_pos
  · rw [c4Amount, Rat.mkRat_eq_div]
    norm_num
  · rw [c4Amount, Rat.mkRat_eq_div]
    norm_num

theorem log2_tenth : Int.log 2 ((1 : ℚ)/10) = -4 := by
  apply int_log_eq_of_bounds 2 (by norm_num) _ (by norm_num)
  · norm_num
  · norm_num

theorem log10_c4Float : Int.log 10 c4Float = -1 := by
  apply int_log_eq_of_bounds 10 (by norm_num) _ c4Float_pos
  · rw [c4Float, Rat.mkRat_eq_div]
    norm_num
  · rw [c4Float, Rat.mkRat_eq_div]
    norm_num

theorem floatRound_c4Amount : floatRound c4Amount = c4Float := by
  rw [floatRound, if_neg (ne_of_gt c4Amount_pos), if_neg (not_lt_of_gt c4Amount_pos),
    abs_of_pos c4Amount_pos, log2_c4Amount]
  have h56 : (-(-4 - 52 : ℤ)) = ((56 : ℕ) : ℤ) := by norm_num
  have hm : roundHalfEven (c4Amount * (2 : ℚ) ^ (-(-4 - 52 : ℤ))) = 7205759403792794 := by
    rw [h56, zpow_natCast]
    have := roundHalfEven_eq_of_gt_half (c4Amount * (2 : ℚ) ^ (56 : ℕ)) 7205759403792793
      (by rw [c4Amount, Rat.mkRat_eq_div]; push_cast; norm_num)
      (by rw [c4Amount, Rat.mkRat_eq_div]; push_cast; norm_num)
      (by rw [c4Amount, Rat.mkRat_eq_div]; push_cast; norm_num)
    rw [this]
    norm_num
  rw [hm, c4Float, Rat.mkRat_eq_div]
  rw [show (-4 - 52 : ℤ) = -((56 : ℕ) : ℤ) from by norm_num, zpow_neg, zpow_natCast]
  push_cast
  norm_num

theorem floatRound_tenth : floatRound ((1 : ℚ)/10) = c4Float := by
  rw [floatRound, if_neg (by norm_num), if_neg (by norm_num),
    abs_of_pos (by norm_num : (0:ℚ) < 1/10), log2_tenth]
  have h56 : (-(-4 - 52 : ℤ)) = ((56 : ℕ) : ℤ) := by norm_num
  have hm : roundHalfEven ((1 : ℚ)/10 * (2 : ℚ) ^ (-(-4 - 52 : ℤ))) = 7205759403792794 := by
    rw [h56, zpow_natCast]
    have := roundHalfEven_eq_of_gt_half ((1 : ℚ)/10 * (2 : ℚ) ^ (56 : ℕ)) 7205759403792793
      (by push_cast; norm_num) (by push_cast; norm_num) (by push_cast; norm_num)
    rw [this]
    norm_num
  rw [hm, c4Float, Rat.mkRat_eq_div]
  rw [show (-4 - 52 : ℤ) = -((56 : ℕ) : ℤ) from by norm_num, zpow_neg, zpow_natCast]
  push_cast
  norm_num

theorem roundSig_c4Float : roundSig c4Float 1 = 1/10 := by
  rw [roundSig, if_neg (not_lt_of_gt c4Float_pos), abs_of_pos c4Float_pos, log10_c4Float]
  have hidx : (Int.ofNat (1 - 1) : ℤ) = 0 := by norm_num
  have hm : roundHalfEven (c4Float * (10 : ℚ) ^ (-(-1 - ((1 - 1 : ℕ) : ℤ)))) = 1 := by
    have h1 : (-(-1 - ((1 - 1 : ℕ) : ℤ))) = ((1 : ℕ) : ℤ) := by norm_num
    rw [h1, zpow_natCast]
    have := roundHalfEven_eq_of_lt_half (c4Float * (10 : ℚ) ^ (1 : ℕ)) 1
      (by rw [c4Float, Rat.mkRat_eq_div]; push_cast; norm_num)
      (by rw [c4Float, Rat.mkRat_eq_div]; push_cast; norm_num)
      (by rw [c4Float, Rat.mkRat_eq_div]; push_cast; norm_num)
    rw [this]
  rw [hm]
  rw [show (-1 - ((1 - 1 : ℕ) : ℤ) : ℤ) = -((1 : ℕ) : ℤ) from by norm_num, zpow_neg, zpow_natCast]
  push_cast
  norm_num

theorem pyFloatRepr_c4Float : pyFloatRepr c4Float = 1/10 := by
  rw [pyFloatRepr, if_neg (ne_of_gt c4Float_pos)]
  rw [show (17 : Nat) = 16 + 1 from rfl, reprSearch, roundSig_c4Float,
    if_pos floatRound_tenth]

/-- C4: the serialization code evaluated at a failing input.  A valid
transaction whose amount is the Decimal 0.10000000000000000001 does not
round-trip: to_dict stores float(amount) — the binary64 nearest 0.1 —
and from_dict recovers Decimal(str(·)) = 0.1, so the reconstituted
transaction differs from the original in its amount, contradicting the
claimed exact-decimal (not-binary-float) round-trip. -/
theorem C4_roundtrip_drift :
    Transaction.to_dict c4Txn = Except.ok c4Dict ∧
    Transaction.from_dict c4Dict = some { c4Txn with amount := DecVal.num (1/10) } ∧
    Transaction.from_dict c4Dict ≠ some c4Txn := by
  have hb1 : ¬ floatOverflowBound ≤ c4Amount := by
    rw [floatOverflowBound, c4Amount, Rat.mkRat_eq_div, Rat.mkRat_eq_div]
    push_cast
    norm_num
  have hb2 : ¬ c4Amount ≤ -floatOverflowBound := by
    rw [floatOverflowBound, c4Amount, Rat.mkRat_eq_div, Rat.mkRat_eq_div]
    push_cast
    norm_num
  have hsa : storedAmount (DecVal.num c4Amount) = PyFloat.fin c4Float := by
    show (if floatOverflowBound ≤ c4Amount then PyFloat.finf false
        else if c4Amount ≤ -floatOverflowBound then PyFloat.finf true
        else PyFloat.fin (floatRound c4Amount)) = PyFloat.fin c4Float
    rw [if_neg hb1, if_neg hb2, floatRound_c4Amount]
  have hto : Transaction.to_dict c4Txn = Except.ok c4Dict := by
    show Except.ok
        { id := none, transaction_date := ⟨2024, 1, 15⟩, post_date := ⟨2024, 1, 15⟩,
          description := "LEDGER", category := "Misc", transaction_type := "Sale",
          amount := storedAmount (DecVal.num c4Amount), memo := none }
      = Except.ok c4Dict
    rw [hsa]
    rfl
  have hfd : Transaction.from_dict c4Dict
      = some { c4Txn with amount := DecVal.num (1/10) } := by
    show mkTransaction ⟨2024, 1, 15⟩ ⟨2024, 1, 15⟩ "LEDGER" "Misc" "Sale"
        (DecVal.num (pyFloatRepr c4Float)) none none = _
    rw [pyFloatRepr_c4Float, mkTransaction]
    rw [if_neg (by decide), if_neg (fun hc => DecVal.noConfusion hc),
      if_neg (by intro hc; injection hc with hc'; norm_num at hc')]
    rfl
  refine ⟨hto, hfd, ?_⟩
  rw [hfd]
  intro hcontra
  injection hcontra with h0
  have hfield := congrArg Transaction.amount h0
  have hfield' : DecVal.num ((1 : ℚ)/10) = DecVal.num c4Amount := hfield
  injection hfield' with hq
  rw [c4Amount, Rat.mkRat_eq_div] at hq
  norm_num at hq
